import Mathlib

/-!
# Verification of the ViewportCanvas pan/zoom renderer

A shallow embedding of `src/viewport.py` (class `ViewportCanvas`): the
smooth pan/zoom viewport with a world-anchored SHARP tile layer and a
screen-pinned PREVIEW proxy layer.

Modelling conventions:
* Python floats are modelled as exact rationals (`ℚ`); Python ints as `ℤ`/`ℕ`.
* `int(x)` is truncation toward zero (`pyInt`), `round(x)` is Python's
  round-half-to-even (`pyRound`), `//` on nonnegative ints is floor division.
* The Tk canvas is idealised: `canvasx 0` / `canvasy 0` is an exact rational
  scroll offset `(scrollL, scrollT)`, `xview_moveto f` places the view origin
  at `f * scrollRegionW` exactly, and `after` / `after_cancel` are modelled by
  an explicit table of pending timers with fresh numeric handles.
* Pixel buffers are abstracted: a render is recorded as the crop rectangle,
  level choice, target size and filter that the code would pass to PIL, plus a
  counter of SHARP resample operations.
* Pyramid levels built by `_build_pyramid` have scale exactly `(1/2)^k` at
  index `k` (starting from `1.0` and multiplying by `0.5`, which is exact in
  floating point).  The level selectors score a level through `log2` of
  zoom/scale, which is irrational in general; the model therefore carries
  `lg = log2 zoom` as an explicit rational parameter (state field `lgZoom`)
  and scores level `k` as `|lg + k| - bias * k`, the exact value of
  `|log2 (zoom/scale)| - bias * (-log2 scale)` at `scale = (1/2)^k`.
  All theorems about the drawing path hold for every value of `lgZoom`.
-/

namespace TimViewer

/-- Image dimensions (`pil.width`, `pil.height`). -/
structure Dims where
  w : ℕ
  h : ℕ
deriving DecidableEq, Repr

/-- Minimum of width and height of a pyramid level's image. -/
def minDim (d : Dims) : ℕ := min d.w d.h

/-- Python `int(x)` on a float: truncation toward zero. -/
def pyInt (q : ℚ) : ℤ := if 0 ≤ q then ⌊q⌋ else ⌈q⌉

/-- Python `round(x)`: round half to even (banker's rounding). -/
def pyRound (q : ℚ) : ℤ :=
  let f := ⌊q⌋
  let d := q - (f : ℚ)
  if d < 1/2 then f
  else if 1/2 < d then f + 1
  else if f % 2 = 0 then f else f + 1

/-- Model of `float(z or 1.0)`: a zero float is replaced by `1.0`. -/
def zeroGuard (z : ℚ) : ℚ := if z = 0 then 1 else z

/-- `ViewportCanvas._clamp01`. -/
def clamp01 (v : ℚ) : ℚ := if v < 0 then 0 else if v > 1 then 1 else v

/-- `self._pyr_min_dim`. -/
def pyrMinDim : ℕ := 256

/-- `self._pyr_levels`. -/
def pyrLevels : ℕ := 5

/-- `self._pyr_bias_down`. -/
def pyrBiasDown : ℚ := 55/100

/-- `self._preview_bias_down_extra`. -/
def previewBiasDownExtra : ℚ := 95/100

/-- Loop body of `_build_pyramid`: repeatedly halve (floor division, min 1)
and append `(scale * 0.5, image)` while the current level's minimum dimension
exceeds `_pyr_min_dim`, for at most `fuel = _pyr_levels - 1` iterations. -/
def buildPyramidAux : ℕ → ℚ → ℕ → ℕ → List (ℚ × Dims)
  | 0, _, _, _ => []
  | fuel + 1, scale, w, h =>
    if min w h ≤ pyrMinDim then []
    else
      let w2 := max 1 (w / 2)
      let h2 := max 1 (h / 2)
      let scale2 := scale * (1/2)
      (scale2, ⟨w2, h2⟩) :: buildPyramidAux fuel scale2 w2 h2

/-- `ViewportCanvas._build_pyramid` (on image dimensions): level 0 is the
original at scale `1.0`, followed by the halving loop. -/
def buildPyramid (pil : Dims) : List (ℚ × Dims) :=
  (1, pil) :: buildPyramidAux (pyrLevels - 1) 1 pil.w pil.h

/-- Score that `_pick_pyr_level` assigns to pyramid level `k`
(`scale = (1/2)^k`), written in terms of `lg = log2 zoom`:
`score = |log2 (zoom/scale)| - bias * (-log2 scale) = |lg + k| - bias * k`. -/
def pyrScore (bias lg : ℚ) (k : ℕ) : ℚ := |lg + (k : ℚ)| - bias * (k : ℚ)

/-- The selection loop shared by `_pick_pyr_level` and
`_pick_pyr_level_preview`: scan the levels in order, keeping the first
strictly better (lower-score) level. -/
def pickFold (bias lg : ℚ) (levels : List ℕ) : Option ℕ :=
  levels.foldl
    (fun best k =>
      match best with
      | none => some k
      | some b => if pyrScore bias lg k < pyrScore bias lg b then some k else some b)
    none

/-- Index of the pyramid level chosen by the selector with the given bias,
over a pyramid with `n` levels (level `k` has scale `(1/2)^k`). -/
def pickPyrLevelIdx (bias lg : ℚ) (n : ℕ) : Option ℕ :=
  pickFold bias lg (List.range n)

/-- `self._pad_mode`: `"auto"` or a fixed pixel value. -/
inductive PadMode where
  | auto : PadMode
  | px (v : ℤ) : PadMode
deriving DecidableEq, Repr

/-- Purpose of a scheduled Tk timer callback. -/
inductive Callback where
  | doRedraw : Callback
  | previewFire : Callback
  | hqRedraw : Callback
deriving DecidableEq, Repr

/-- One pending Tk `after` timer: its handle, requested delay (ms) and
callback. -/
structure Timer where
  id : ℕ
  delay : ℤ
  cb : Callback
deriving DecidableEq, Repr

/-- Resampling filter handed to PIL (`Image.NEAREST` / `Image.BILINEAR`). -/
inductive Resample where
  | nearest : Resample
  | bilinear : Resample
deriving DecidableEq, Repr

/-- The SHARP-layer deduplication key built in `_draw_viewport_only`
(`id(pil)` is omitted: the model does not track raster identity). -/
structure DrawKey where
  z : ℚ
  cropL : ℤ
  cropT : ℤ
  cropR : ℤ
  cropB : ℤ
  lvlScale : ℚ
  l2 : ℤ
  t2 : ℤ
  r2 : ℤ
  b2 : ℤ
  targetW : ℤ
  targetH : ℤ
  dragging : Bool
  marginScreen : ℤ
  quantScreen : ℤ
deriving DecidableEq, Repr

/-- Geometry of the bitmap rendered into the SHARP layer (crop rectangle in
pyramid-level coordinates, on-screen target size, filter, world anchor). -/
structure SharpRender where
  l2 : ℤ
  t2 : ℤ
  r2 : ℤ
  b2 : ℤ
  targetW : ℤ
  targetH : ℤ
  filterUsed : Resample
  worldX : ℤ
  worldY : ℤ
deriving DecidableEq, Repr

/-- Geometry of the bitmap rendered into the PREVIEW layer: either the bare
background (viewport entirely outside the image) or a crop of a pyramid
level pasted at an offset into the background. -/
inductive PreviewRender where
  | bgOnly (cw ch : ℕ) : PreviewRender
  | render (cw ch : ℕ) (dxPx dyPx : ℤ) (l2 t2 r2 b2 : ℤ)
      (cropWPx cropHPx : ℤ) : PreviewRender
deriving DecidableEq, Repr

/-- The visible rectangle in image coordinates as returned by
`_visible_rect_image_coords`, together with the canvas size. -/
structure VisRect where
  l : ℚ
  t : ℚ
  r : ℚ
  b : ℚ
  cw : ℕ
  ch : ℕ
deriving DecidableEq, Repr

/-- State of one `ViewportCanvas` instance (its mutable attributes), plus the
pending-timer table, the two canvas image items, and a ghost counter of
SHARP-layer resample operations. -/
structure State where
  pil : Option Dims
  zoom : ℚ
  lgZoom : ℚ
  pyr : List (ℚ × Dims)
  scrollL : ℚ
  scrollT : ℚ
  canvasW : ℕ
  canvasH : ℕ
  padMode : PadMode
  isDragging : Bool
  userPanned : Bool
  viewAfterId : Option ℕ
  forceNextDraw : Bool
  hqAfterId : Option ℕ
  lastDrawKey : Option DrawKey
  tileBox : Option (ℤ × ℤ × ℤ × ℤ)
  lastWasPreview : Bool
  dragFreezeEnabled : Bool
  dragEscapePending : Bool
  dragLastEscapeRedrawMs : ℚ
  previewEnabled : Bool
  previewLastMs : ℚ
  previewAfterId : Option ℕ
  dragLastRedrawMs : ℚ
  scanMarkX : ℤ
  scanMarkY : ℤ
  scanScrollL : ℚ
  scanScrollT : ℚ
  tkImage : Option SharpRender
  previewTk : Option PreviewRender
  previewVisible : Bool
  canvasImageItem : Bool
  previewItem : Bool
  sharpResamples : ℕ
  timers : List Timer
  nextTimerId : ℕ
  scrollRegionW : ℤ
  scrollRegionH : ℤ
deriving DecidableEq, Repr

/-- `self._idle_margin_screen`. -/
def idleMarginScreen : ℤ := 160

/-- `self._inner_pad_screen_px`. -/
def innerPadScreenPx : ℤ := 140

/-- `self._edge_trigger_screen_px`. -/
def edgeTriggerScreenPx : ℤ := 140

/-- `self._drag_freeze_escape_screen_px`. -/
def dragFreezeEscapeScreenPx : ℤ := 130

/-- `self._preview_min_interval_ms`. -/
def previewMinIntervalMs : ℚ := 18

/-- `self._zoom_low`. -/
def zoomLow : ℚ := 5/2

/-- `self._zoom_high`. -/
def zoomHigh : ℚ := 10

/-- `ViewportCanvas._compute_pad`: `max(canvas_w, canvas_h)` in auto mode,
the configured pixel value otherwise. -/
def computePad (cw ch : ℕ) (m : PadMode) : ℤ :=
  match m with
  | .auto => (max cw ch : ℕ)
  | .px v => v

/-- `ViewportCanvas._screen_to_image_px`:
`max(1, int(px_screen / max(1e-9, z)))`. -/
def screenToImagePx (px : ℤ) (z : ℚ) : ℤ :=
  max 1 (pyInt ((px : ℚ) / max (1/1000000000) z))

/-- `ViewportCanvas._quantize_floor` (Python `//` is floor division). -/
def quantizeFloor (v q : ℤ) : ℤ := (Int.fdiv v q) * q

/-- `ViewportCanvas._quantize_ceil`. -/
def quantizeCeil (v q : ℤ) : ℤ := (Int.fdiv (v + q - 1) q) * q

/-- `ViewportCanvas._scrollregion_wh` for a given pad and (zero-guarded)
zoom: `(int(w*z) max 1) + 2*pad` in each axis. -/
def scrollregionWH (pil : Dims) (pad : ℤ) (z : ℚ) : ℤ × ℤ :=
  let zw := max 1 (pyInt ((pil.w : ℚ) * z))
  let zh := max 1 (pyInt ((pil.h : ℚ) * z))
  (zw + 2 * pad, zh + 2 * pad)

/-- `ViewportCanvas._ensure_scrollregion`: recompute and store the scroll
region for the current canvas size, pad and zoom. -/
def ensureScrollregion (s : State) (pil : Dims) : State :=
  let cw := max 1 s.canvasW
  let ch := max 1 s.canvasH
  let pad := computePad cw ch s.padMode
  let wh := scrollregionWH pil pad (zeroGuard s.zoom)
  { s with scrollRegionW := wh.1, scrollRegionH := wh.2 }

/-- Tk `canvas.xview_moveto f` (idealised): the view origin moves to fraction
`f` of the configured scroll region, exactly. -/
def xviewMoveto (s : State) (f : ℚ) : State :=
  { s with scrollL := f * (s.scrollRegionW : ℚ) }

/-- Tk `canvas.yview_moveto f` (idealised). -/
def yviewMoveto (s : State) (f : ℚ) : State :=
  { s with scrollT := f * (s.scrollRegionH : ℚ) }

/-- `ViewportCanvas._visible_rect_image_coords`: the visible rectangle in
image coordinates, clipped to `[0, w] × [0, h]`; `none` iff no image is
loaded. -/
def visibleRectImageCoords (s : State) : Option VisRect :=
  match s.pil with
  | none => none
  | some pil =>
    let z := zeroGuard s.zoom
    let cw := max 1 s.canvasW
    let ch := max 1 s.canvasH
    let pad := computePad cw ch s.padMode
    let visL := (s.scrollL - (pad : ℚ)) / z
    let visT := (s.scrollT - (pad : ℚ)) / z
    let visR := (s.scrollL + (cw : ℚ) - (pad : ℚ)) / z
    let visB := (s.scrollT + (ch : ℚ) - (pad : ℚ)) / z
    some ⟨max 0 (min (pil.w : ℚ) visL), max 0 (min (pil.h : ℚ) visT),
          max 0 (min (pil.w : ℚ) visR), max 0 (min (pil.h : ℚ) visB), cw, ch⟩

/-- A baseline concrete state used by the witnesses: a 100×100 image shown in
a 512×512 canvas at zoom 4, scrolled to the origin, idle. -/
def baseState : State where
  pil := some ⟨100, 100⟩
  zoom := 4
  lgZoom := 2
  pyr := buildPyramid ⟨100, 100⟩
  scrollL := 0
  scrollT := 0
  canvasW := 512
  canvasH := 512
  padMode := .auto
  isDragging := false
  userPanned := false
  viewAfterId := none
  forceNextDraw := false
  hqAfterId := none
  lastDrawKey := none
  tileBox := none
  lastWasPreview := false
  dragFreezeEnabled := true
  dragEscapePending := false
  dragLastEscapeRedrawMs := 0
  previewEnabled := true
  previewLastMs := 0
  previewAfterId := none
  dragLastRedrawMs := 0
  scanMarkX := 0
  scanMarkY := 0
  scanScrollL := 0
  scanScrollT := 0
  tkImage := none
  previewTk := none
  previewVisible := false
  canvasImageItem := false
  previewItem := false
  sharpResamples := 0
  timers := []
  nextTimerId := 0
  scrollRegionW := 0
  scrollRegionH := 0

/-- Tk `self.after(delay, cb)`: append a pending timer with a fresh handle
and return the handle. -/
def afterAdd (s : State) (delay : ℤ) (cb : Callback) : State × ℕ :=
  ({ s with timers := s.timers ++ [⟨s.nextTimerId, delay, cb⟩],
            nextTimerId := s.nextTimerId + 1 }, s.nextTimerId)

/-- Tk `self.after_cancel(i)`: drop the pending timer with handle `i` (a
safe no-op when no such timer is pending, matching the `try/except`
wrappers in the source). -/
def afterCancel (s : State) (i : ℕ) : State :=
  { s with timers := s.timers.filter (fun t => t.id != i) }

/-- `ViewportCanvas.schedule_redraw`: record the force flag, cancel any
pending SHARP timer, and schedule `_do_redraw` under a fresh handle. -/
def scheduleRedraw (s : State) (delayMs : ℤ) (force : Bool) : State :=
  let s1 := { s with forceNextDraw := force }
  let s2 := match s1.viewAfterId with
            | some i => afterCancel s1 i
            | none => s1
  let r := afterAdd s2 delayMs .doRedraw
  { r.1 with viewAfterId := some r.2 }

/-- Check whether a pending timer is a SHARP `_do_redraw` callback. -/
def isDoRedraw (t : Timer) : Bool :=
  match t.cb with
  | .doRedraw => true
  | _ => false

/-- Handles of all pending timers whose callback is `_do_redraw`. -/
def doRedrawIds (s : State) : List ℕ :=
  (s.timers.filter isDoRedraw).map Timer.id

/-- `ViewportCanvas.set_zoom`: zero-guard and clamp the requested zoom, bail
out when the change is below `1e-9` and not forced, otherwise store the zoom,
optionally clear the user-panned flag, invalidate the cache and force a SHARP
redraw. -/
def setZoom (s : State) (z : ℚ) (recenter force : Bool) : State :=
  let z1 := zeroGuard z
  let z2 := max (1/2) (min 16 z1)
  if |z2 - s.zoom| < 1/1000000000 ∧ ¬force then s
  else
    let s1 := { s with zoom := z2,
                       userPanned := if recenter then false else s.userPanned,
                       lastDrawKey := none, tileBox := none }
    scheduleRedraw s1 0 true

/-- The per-notch zoom ratio `1.125`. -/
def wheelZoomRatioBase : ℚ := 9/8

/-- Wheel-delta normalisation (unit deltas of exactly `±1` become `±120`). -/
def normDelta (d : ℚ) : ℚ :=
  if |d| = 1 then (if d > 0 then 120 else -120) else d

/-- `ViewportCanvas.wheel_zoom`.  The factor `1.125 ** (normDelta d / 120)`
is irrational in general and is supplied as the parameter `ratio`; for a
whole number of notches `normDelta d = 120 * n` it equals `(9/8)^n` exactly.
The zoom-update logic is independent of the value of `ratio`. -/
def wheelZoom (s : State) (canvasX canvasY : ℤ) (d : ℚ) (ratio : ℚ) : State :=
  let oldZ := zeroGuard s.zoom
  if |d| < 1/1000000000 then s
  else
    let newZ := max (1/2) (min 16 (oldZ * ratio))
    if |newZ - oldZ| < 1/1000000000 then s
    else
      match s.pil with
      | none =>
        scheduleRedraw { s with zoom := newZ, lastDrawKey := none, tileBox := none } 0 true
      | some pil =>
        let wx := s.scrollL + (canvasX : ℚ)
        let wy := s.scrollT + (canvasY : ℚ)
        let s1 := { s with zoom := newZ, lastDrawKey := none, tileBox := none }
        let s2 := ensureScrollregion s1 pil
        let cw := max 1 s2.canvasW
        let ch := max 1 s2.canvasH
        let pad := computePad cw ch s2.padMode
        let ix := (wx - (pad : ℚ)) / oldZ
        let iy := (wy - (pad : ℚ)) / oldZ
        let wxNew := (pad : ℚ) + ix * newZ
        let wyNew := (pad : ℚ) + iy * newZ
        let leftNew := wxNew - (canvasX : ℚ)
        let topNew := wyNew - (canvasY : ℚ)
        let wh := scrollregionWH pil pad (zeroGuard newZ)
        let s3 := xviewMoveto s2 (clamp01 (leftNew / max 1 (wh.1 : ℚ)))
        let s4 := yviewMoveto s3 (clamp01 (topNew / max 1 (wh.2 : ℚ)))
        scheduleRedraw { s4 with userPanned := true } 0 true

/-- Image-space coordinates of the canvas point `(cx, cy)` in state `s`
(the inverse of the world transform at the current zoom and pad). -/
def imagePtAt (s : State) (cx cy : ℤ) : ℚ × ℚ :=
  let z := zeroGuard s.zoom
  let cw := max 1 s.canvasW
  let ch := max 1 s.canvasH
  let pad := computePad cw ch s.padMode
  ((s.scrollL + (cx : ℚ) - (pad : ℚ)) / z, (s.scrollT + (cy : ℚ) - (pad : ℚ)) / z)

/-- Pad used by `wheel_zoom` (unchanged by the zoom update). -/
def wheelPad (s : State) : ℤ :=
  computePad (max 1 s.canvasW) (max 1 s.canvasH) s.padMode

/-- The clamped new zoom computed by `wheel_zoom`. -/
def wheelNewZoom (s : State) (ratio : ℚ) : ℚ :=
  max (1/2) (min 16 (zeroGuard s.zoom * ratio))

/-- Scroll-region width used by the `wheel_zoom` moveto. -/
def wheelScrollW (s : State) (pil : Dims) (ratio : ℚ) : ℤ :=
  (scrollregionWH pil (wheelPad s) (zeroGuard (wheelNewZoom s ratio))).1

/-- Scroll-region height used by the `wheel_zoom` moveto. -/
def wheelScrollH (s : State) (pil : Dims) (ratio : ℚ) : ℤ :=
  (scrollregionWH pil (wheelPad s) (zeroGuard (wheelNewZoom s ratio))).2

/-- The raw new left scroll offset solved for by `wheel_zoom`. -/
def wheelLeftNew (s : State) (cx : ℤ) (ratio : ℚ) : ℚ :=
  (wheelPad s : ℚ) +
    (s.scrollL + (cx : ℚ) - (wheelPad s : ℚ)) / zeroGuard s.zoom * wheelNewZoom s ratio -
    (cx : ℚ)

/-- The raw new top scroll offset solved for by `wheel_zoom`. -/
def wheelTopNew (s : State) (cy : ℤ) (ratio : ℚ) : ℚ :=
  (wheelPad s : ℚ) +
    (s.scrollT + (cy : ℚ) - (wheelPad s : ℚ)) / zeroGuard s.zoom * wheelNewZoom s ratio -
    (cy : ℚ)

/-- `ViewportCanvas._zoom_t`: smoothstep easing between `_zoom_low` and
`_zoom_high`. -/
def zoomT (z : ℚ) : ℚ :=
  if z ≤ zoomLow then 0
  else if z ≥ zoomHigh then 1
  else
    let t := (z - zoomLow) / (zoomHigh - zoomLow)
    t * t * (3 - 2 * t)

/-- `self._drag_margin_screen_low_zoom`. -/
def dragMarginScreenLowZoom : ℤ := 260

/-- `self._drag_margin_screen_high_zoom`. -/
def dragMarginScreenHighZoom : ℤ := 420

/-- `self._drag_quant_screen_low_zoom_px`. -/
def dragQuantScreenLowZoomPx : ℤ := 32

/-- `self._drag_quant_screen_high_zoom_px`. -/
def dragQuantScreenHighZoomPx : ℤ := 64

/-- `self._base_edge_debounce_ms`. -/
def baseEdgeDebounceMs : ℤ := 18

/-- `ViewportCanvas._scaled_drag_params`: zoom-eased margin, quantization
and debounce, each clamped to its sane range. -/
def scaledDragParams (z : ℚ) : ℤ × ℤ × ℤ :=
  let t := zoomT z
  let margin := pyRound ((dragMarginScreenLowZoom : ℚ) +
    ((dragMarginScreenHighZoom : ℚ) - (dragMarginScreenLowZoom : ℚ)) * t)
  let quant := pyRound ((dragQuantScreenLowZoomPx : ℚ) +
    ((dragQuantScreenHighZoomPx : ℚ) - (dragQuantScreenLowZoomPx : ℚ)) * t)
  let debounce := pyRound ((baseEdgeDebounceMs : ℚ) * (1 + (12/10) * t))
  (max 80 (min 900 margin), max 8 (min 256 quant), max 8 (min 200 debounce))

/-- The margin-expanded visible rectangle of `_draw_viewport_only`
(lines computing `l_ix … b_iy`), clipped to the image bounds. -/
def marginRectImage (pil : Dims) (z : ℚ) (margin : ℤ) (scrollL scrollT : ℚ)
    (cw ch : ℕ) (pad : ℤ) : ℚ × ℚ × ℚ × ℚ :=
  let leftW := scrollL - (margin : ℚ)
  let topW := scrollT - (margin : ℚ)
  let rightW := scrollL + (cw : ℚ) + (margin : ℚ)
  let botW := scrollT + (ch : ℚ) + (margin : ℚ)
  let lIx := max 0 (min (pil.w : ℚ) ((leftW - (pad : ℚ)) / z))
  let tIy := max 0 (min (pil.h : ℚ) ((topW - (pad : ℚ)) / z))
  let rIx := max 0 (min (pil.w : ℚ) ((rightW - (pad : ℚ)) / z))
  let bIy := max 0 (min (pil.h : ℚ) ((botW - (pad : ℚ)) / z))
  (lIx, tIy, rIx, bIy)

/-- The tile-box computation of `_draw_viewport_only`: margin expansion,
clipping, degenerate-rect abort, truncation with the `0.999` nudge,
quantization of both sides, and the final clamps. -/
def computeTile (pil : Dims) (z : ℚ) (margin quant : ℤ) (scrollL scrollT : ℚ)
    (cw ch : ℕ) (pad : ℤ) : Option (ℤ × ℤ × ℤ × ℤ) :=
  let r := marginRectImage pil z margin scrollL scrollT cw ch pad
  if r.2.2.1 ≤ r.1 ∨ r.2.2.2 ≤ r.2.1 then none
  else
    let quantImg := screenToImagePx quant z
    let cropL := pyInt r.1
    let cropT := pyInt r.2.1
    let cropR := pyInt (r.2.2.1 + 999/1000)
    let cropB := pyInt (r.2.2.2 + 999/1000)
    let cropL2 := if 1 < quantImg then quantizeFloor cropL quantImg else cropL
    let cropT2 := if 1 < quantImg then quantizeFloor cropT quantImg else cropT
    let cropR2 := if 1 < quantImg then quantizeCeil cropR quantImg else cropR
    let cropB2 := if 1 < quantImg then quantizeCeil cropB quantImg else cropB
    let cropR3 := max (cropL2 + 1) (min (pil.w : ℤ) cropR2)
    let cropB3 := max (cropT2 + 1) (min (pil.h : ℤ) cropB2)
    some (cropL2, cropT2, cropR3, cropB3)

/-- `ViewportCanvas._pick_pyr_level` on the model state: the level index is
chosen by the score at `lgZoom`; scale and image come from the pyramid
entry.  The empty-pyramid fallback returns the source image at scale 1. -/
def pickPyrLevel (s : State) : ℚ × Dims :=
  match pickPyrLevelIdx pyrBiasDown s.lgZoom s.pyr.length with
  | none => (1, s.pil.getD ⟨0, 0⟩)
  | some k => s.pyr.getD k (1, s.pil.getD ⟨0, 0⟩)

/-- `ViewportCanvas._pick_pyr_level_preview` on the model state. -/
def pickPyrLevelPreview (s : State) : ℚ × Dims :=
  match pickPyrLevelIdx (pyrBiasDown + previewBiasDownExtra) s.lgZoom s.pyr.length with
  | none => (1, s.pil.getD ⟨0, 0⟩)
  | some k => s.pyr.getD k (1, s.pil.getD ⟨0, 0⟩)

/-- The recenter branch of `_draw_viewport_only`: scroll so that the zoomed
image centre lands at the canvas centre. -/
def recenterMoveto (s : State) (pil : Dims) : State :=
  let z := zeroGuard s.zoom
  let cw := max 1 s.canvasW
  let ch := max 1 s.canvasH
  let pad := computePad cw ch s.padMode
  let wh := scrollregionWH pil pad z
  let zw := max 1 (pyInt ((pil.w : ℚ) * z))
  let zh := max 1 (pyInt ((pil.h : ℚ) * z))
  let centerX := (pad : ℚ) + (zw : ℚ) / 2
  let centerY := (pad : ℚ) + (zh : ℚ) / 2
  let targetLeft := centerX - (cw : ℚ) / 2
  let targetTop := centerY - (ch : ℚ) / 2
  let s1 := xviewMoveto s (clamp01 (targetLeft / max 1 (wh.1 : ℚ)))
  yviewMoveto s1 (clamp01 (targetTop / max 1 (wh.2 : ℚ)))

/-- The state adjustments `_draw_viewport_only` performs before computing
the tile: `_ensure_scrollregion`, then the optional recenter moveto. -/
def preDrawState (s : State) (pil : Dims) (recenter : Bool) : State :=
  let s1 := ensureScrollregion s pil
  if recenter then recenterMoveto s1 pil else s1

/-- The SHARP margin (screen px) used by `_draw_viewport_only`: the eased
drag margin while dragging, `_idle_margin_screen` otherwise. -/
def sharpMarginScreen (s : State) (z : ℚ) : ℤ :=
  if s.isDragging then (scaledDragParams z).1 else idleMarginScreen

/-- The SHARP quantization (screen px) used by `_draw_viewport_only`. -/
def sharpQuantScreen (s : State) (z : ℚ) : ℤ :=
  if s.isDragging then (scaledDragParams z).2.1 else 1

/-- The covered-tile early-return test of `_draw_viewport_only`: the visible
rectangle, shrunk by the inner tolerance, is fully inside the cached tile. -/
def tileCovered (s : State) (z : ℚ) (visL visT visR visB : ℚ) : Bool :=
  match s.tileBox with
  | none => false
  | some (tl, tt, tr, tb) =>
    let inner := screenToImagePx innerPadScreenPx z
    decide (visL ≥ ((tl + inner : ℤ) : ℚ) ∧ visT ≥ ((tt + inner : ℤ) : ℚ) ∧
            visR ≤ ((tr - inner : ℤ) : ℚ) ∧ visB ≤ ((tb - inner : ℤ) : ℚ))

/-- Core of `_draw_viewport_only` (continuation; see module header). -/
def drawCore (s : State) (pil : Dims) (z : ℚ) (visL visT visR visB : ℚ)
    (cw ch : ℕ) (force : Bool) : State :=
  let pad := computePad cw ch s.padMode
  let covered : Bool :=
    if force then false
    else tileCovered s z visL visT visR visB
  if covered then s
  else
    match computeTile pil z (sharpMarginScreen s z) (sharpQuantScreen s z)
        s.scrollL s.scrollT cw ch pad with
    | none => s
    | some (cropL, cropT, cropR, cropB) =>
      let s1 := { s with tileBox := some (cropL, cropT, cropR, cropB) }
      let lvl := pickPyrLevel s1
      let l2 := pyInt ((cropL : ℚ) * lvl.1)
      let t2 := pyInt ((cropT : ℚ) * lvl.1)
      let r2 := min (lvl.2.w : ℤ) (max (l2 + 1) ⌈(cropR : ℚ) * lvl.1⌉)
      let b2 := min (lvl.2.h : ℤ) (max (t2 + 1) ⌈(cropB : ℚ) * lvl.1⌉)
      let targetW := max 1 (pyInt (((cropR - cropL : ℤ) : ℚ) * z))
      let targetH := max 1 (pyInt (((cropB - cropT : ℤ) : ℚ) * z))
      let key : DrawKey := ⟨z, cropL, cropT, cropR, cropB, lvl.1,
        l2, t2, r2, b2, targetW, targetH, s1.isDragging,
        sharpMarginScreen s z, sharpQuantScreen s z⟩
      if s1.lastDrawKey = some key ∧ s1.tkImage.isSome ∧ ¬force then s1
      else
        let rel := z / lvl.1
        let filt := if s1.isDragging then Resample.nearest
          else if rel < 1 then Resample.bilinear else Resample.nearest
        let worldX := pyRound ((pad : ℚ) + (cropL : ℚ) * z)
        let worldY := pyRound ((pad : ℚ) + (cropT : ℚ) * z)
        { s1 with
          tkImage := some ⟨l2, t2, r2, b2, targetW, targetH, filt, worldX, worldY⟩,
          sharpResamples := s1.sharpResamples + 1,
          lastWasPreview := s1.isDragging,
          lastDrawKey := some key,
          canvasImageItem := true }

/-- `ViewportCanvas._draw_viewport_only`. -/
def drawViewportOnly (s : State) (recenter force : Bool) : State :=
  match s.pil with
  | none => s
  | some pil =>
    let z := zeroGuard s.zoom
    match visibleRectImageCoords s with
    | none => s
    | some v =>
      let s1 := preDrawState s pil recenter
      if recenter then
        match visibleRectImageCoords s1 with
        | none => s1
        | some v2 => drawCore s1 pil z v2.l v2.t v2.r v2.b v2.cw v2.ch force
      else
        drawCore s1 pil z v.l v.t v.r v.b v.cw v.ch force

/-- `ViewportCanvas._do_redraw`: clear the timer handle, honour the hard
freeze during drags, then draw. -/
def doRedraw (s : State) : State :=
  let s1 := { s with viewAfterId := none }
  if s1.isDragging && s1.dragFreezeEnabled && !s1.forceNextDraw &&
      !s1.dragEscapePending then
    { s1 with forceNextDraw := false }
  else
    let s2 := drawViewportOnly s1 (!s1.userPanned) s1.forceNextDraw
    { s2 with forceNextDraw := false, dragEscapePending := false }

/-! ## Tile-box containment (C2) and degenerate-rect abort (C8) -/

/-- The explicit value of the visible rectangle when an image is loaded. -/
def visRectVal (s : State) (pil : Dims) : VisRect :=
  let z := zeroGuard s.zoom
  let cw := max 1 s.canvasW
  let ch := max 1 s.canvasH
  let pad := computePad cw ch s.padMode
  ⟨max 0 (min (pil.w : ℚ) ((s.scrollL - (pad:ℚ)) / z)),
   max 0 (min (pil.h : ℚ) ((s.scrollT - (pad:ℚ)) / z)),
   max 0 (min (pil.w : ℚ) ((s.scrollL + (cw:ℚ) - (pad:ℚ)) / z)),
   max 0 (min (pil.h : ℚ) ((s.scrollT + (ch:ℚ) - (pad:ℚ)) / z)), cw, ch⟩

/-- A state scrolled deep into the pad area, where even the margin-expanded
rectangle clips to an empty region. -/
def degenerateScrollState : State :=
  { baseState with scrollL := -100000, scrollT := -100000 }

/-- `self._drag_min_interval_ms_low_zoom`. -/
def dragMinIntervalMsLowZoom : ℚ := 0

/-- `self._drag_min_interval_ms_high_zoom`. -/
def dragMinIntervalMsHighZoom : ℚ := 55

/-- `self._drag_outside_tile_min_interval_ms_high_zoom`. -/
def dragOutsideTileMinIntervalMsHighZoom : ℚ := 70

/-- `self._drag_freeze_escape_min_interval_ms_low_zoom`. -/
def dragFreezeEscapeMinIntervalMsLowZoom : ℚ := 0

/-- `self._drag_freeze_escape_min_interval_ms_high_zoom`. -/
def dragFreezeEscapeMinIntervalMsHighZoom : ℚ := 75

/-- `self._hq_delay_ms`. -/
def hqDelayMs : ℤ := 120

/-- Result of `_preview_rect_and_offsets`: ideal viewport rect in image
coordinates, canvas size, paste offset, and clipped crop rect. -/
structure PreviewInfo where
  l0 : ℚ
  t0 : ℚ
  r0 : ℚ
  b0 : ℚ
  cw : ℕ
  ch : ℕ
  dxPx : ℤ
  dyPx : ℤ
  cropL : ℚ
  cropT : ℚ
  cropR : ℚ
  cropB : ℚ
deriving DecidableEq, Repr

/-- `ViewportCanvas._preview_rect_and_offsets`. -/
def previewRectAndOffsets (s : State) : Option PreviewInfo :=
  match s.pil with
  | none => none
  | some pil =>
    let z := zeroGuard s.zoom
    let cw := max 1 s.canvasW
    let ch := max 1 s.canvasH
    let pad := computePad cw ch s.padMode
    let l0 := (s.scrollL - (pad : ℚ)) / z
    let t0 := (s.scrollT - (pad : ℚ)) / z
    let r0 := l0 + (cw : ℚ) / z
    let b0 := t0 + (ch : ℚ) / z
    let cropL := max 0 (min (pil.w : ℚ) l0)
    let cropT := max 0 (min (pil.h : ℚ) t0)
    let cropR := max 0 (min (pil.w : ℚ) r0)
    let cropB := max 0 (min (pil.h : ℚ) b0)
    if cropR ≤ cropL ∨ cropB ≤ cropT then
      some ⟨l0, t0, r0, b0, cw, ch, 0, 0, cropL, cropT, cropR, cropB⟩
    else
      some ⟨l0, t0, r0, b0, cw, ch,
        pyRound ((cropL - l0) * z), pyRound ((cropT - t0) * z),
        cropL, cropT, cropR, cropB⟩

/-- The geometry the body of `_draw_preview_now` renders (crop of the
preview pyramid level and paste offsets); pixel contents abstracted. -/
def previewComputed (s : State) : Option PreviewRender :=
  match previewRectAndOffsets s with
  | none => none
  | some info =>
    if info.cropR ≤ info.cropL ∨ info.cropB ≤ info.cropT then
      some (.bgOnly info.cw info.ch)
    else
      let z := zeroGuard s.zoom
      let lvl := pickPyrLevelPreview s
      let l2a := pyRound (info.cropL * lvl.1)
      let t2a := pyRound (info.cropT * lvl.1)
      let r2a := pyRound (info.cropR * lvl.1)
      let b2a := pyRound (info.cropB * lvl.1)
      let l2 := max 0 (min ((lvl.2.w : ℤ) - 1) l2a)
      let t2 := max 0 (min ((lvl.2.h : ℤ) - 1) t2a)
      let r2 := max (l2 + 1) (min (lvl.2.w : ℤ) r2a)
      let b2 := max (t2 + 1) (min (lvl.2.h : ℤ) b2a)
      let cropWPx := max 1 (pyRound ((info.cropR - info.cropL) * z))
      let cropHPx := max 1 (pyRound ((info.cropB - info.cropT) * z))
      some (.render info.cw info.ch info.dxPx info.dyPx l2 t2 r2 b2 cropWPx cropHPx)

/-- `ViewportCanvas._draw_preview_now`: only the PREVIEW layer's fields (and
the scroll region via `_ensure_scrollregion`) change. -/
def drawPreviewNow (s : State) : State :=
  if !s.previewEnabled || s.pil.isNone then s
  else if !s.isDragging then s
  else
    match s.pil with
    | none => s
    | some pil =>
      let s1 := ensureScrollregion s pil
      match previewComputed s1 with
      | none => s1
      | some pr => { s1 with previewTk := some pr, previewItem := true,
                             previewVisible := true }

/-- `ViewportCanvas._schedule_preview_redraw`: immediate throttled update or
one deferred `_preview_after_fire` job. -/
def schedulePreviewRedraw (s : State) (now : ℚ) : State :=
  let elapsed := now - s.previewLastMs
  if elapsed ≥ previewMinIntervalMs then
    drawPreviewNow { s with previewLastMs := now }
  else
    let delay := pyInt (max 1 (previewMinIntervalMs - elapsed))
    if s.previewAfterId = none then
      let r := afterAdd s delay .previewFire
      { r.1 with previewAfterId := some r.2 }
    else s

/-- `ViewportCanvas._preview_after_fire`. -/
def previewAfterFire (s : State) (now : ℚ) : State :=
  drawPreviewNow { s with previewAfterId := none, previewLastMs := now }

/-- Tk `canvas.scan_mark x y` (records anchor point and anchor scroll). -/
def scanMark (s : State) (x y : ℤ) : State :=
  { s with scanMarkX := x, scanMarkY := y,
           scanScrollL := s.scrollL, scanScrollT := s.scrollT }

/-- Tk `canvas.scan_dragto x y gain=1` (idealised): the view origin moves
opposite the pointer by the distance from the scan anchor. -/
def scanDragto (s : State) (x y : ℤ) : State :=
  { s with scrollL := s.scanScrollL - ((x - s.scanMarkX : ℤ) : ℚ),
           scrollT := s.scanScrollT - ((y - s.scanMarkY : ℤ) : ℚ) }

/-- `ViewportCanvas._viewport_outside_tile`. -/
def viewportOutsideTile (s : State) : Bool :=
  match s.tileBox with
  | none => true
  | some (tl, tt, tr, tb) =>
    match visibleRectImageCoords s with
    | none => true
    | some v =>
      decide (v.l < (tl : ℚ) ∨ v.t < (tt : ℚ) ∨ v.r > (tr : ℚ) ∨ v.b > (tb : ℚ))

/-- `ViewportCanvas._outside_amount_screen_px`; `none` plays the role of
`float("inf")`. -/
def outsideAmountScreenPx (s : State) (z : ℚ) : Option ℚ :=
  match s.tileBox with
  | none => none
  | some (tl, tt, tr, tb) =>
    match visibleRectImageCoords s with
    | none => none
    | some v =>
      let overL := max 0 ((tl : ℚ) - v.l)
      let overT := max 0 ((tt : ℚ) - v.t)
      let overR := max 0 (v.r - (tr : ℚ))
      let overB := max 0 (v.b - (tb : ℚ))
      some (max (max overL overT) (max overR overB) * z)

/-- Comparison `o ≥ t` where `none` stands for infinity. -/
def geOrInf (o : Option ℚ) (t : ℚ) : Bool :=
  match o with
  | none => true
  | some v => decide (v ≥ t)

/-- `ViewportCanvas._near_tile_edge`. -/
def nearTileEdge (s : State) : Bool :=
  match s.tileBox with
  | none => true
  | some (tl, tt, tr, tb) =>
    match visibleRectImageCoords s with
    | none => true
    | some v =>
      let z := zeroGuard s.zoom
      let edgeImg := screenToImagePx edgeTriggerScreenPx z
      decide (v.l < ((tl + edgeImg : ℤ) : ℚ) ∨ v.t < ((tt + edgeImg : ℤ) : ℚ) ∨
              v.r > ((tr - edgeImg : ℤ) : ℚ) ∨ v.b > ((tb - edgeImg : ℤ) : ℚ))

/-- `ViewportCanvas._schedule_drag_redraw` (fallback throttle when freeze is
disabled). -/
def scheduleDragRedraw (s : State) (z : ℚ) (outsideTile : Bool) (now : ℚ) : State :=
  let t := zoomT z
  let base := dragMinIntervalMsLowZoom +
    (dragMinIntervalMsHighZoom - dragMinIntervalMsLowZoom) * t
  let baseMin := if outsideTile then max base (dragOutsideTileMinIntervalMsHighZoom * t)
    else base
  let elapsed := now - s.dragLastRedrawMs
  if elapsed ≥ baseMin then scheduleRedraw { s with dragLastRedrawMs := now } 0 false
  else scheduleRedraw s (pyInt (max 0 (baseMin - elapsed))) false

/-- `ViewportCanvas._schedule_drag_escape_redraw` (freeze escape hatch
throttle). -/
def scheduleDragEscapeRedraw (s : State) (z : ℚ) (now : ℚ) : State :=
  let t := zoomT z
  let baseMin := dragFreezeEscapeMinIntervalMsLowZoom +
    (dragFreezeEscapeMinIntervalMsHighZoom - dragFreezeEscapeMinIntervalMsLowZoom) * t
  let elapsed := now - s.dragLastEscapeRedrawMs
  if elapsed ≥ baseMin then scheduleRedraw { s with dragLastEscapeRedrawMs := now } 0 false
  else scheduleRedraw s (pyInt (max 0 (baseMin - elapsed))) false

/-- `_preview_show`. -/
def previewShow (s : State) : State := { s with previewVisible := true }

/-- `_preview_hide`. -/
def previewHide (s : State) : State := { s with previewVisible := false }

/-- `ViewportCanvas.pan_begin`. -/
def panBegin (s : State) (x y : ℤ) : State :=
  if s.pil.isNone then s
  else
    let s1 := match s.hqAfterId with
              | some i => { afterCancel s i with hqAfterId := none }
              | none => s
    let s2 := match s1.previewAfterId with
              | some i => { afterCancel s1 i with previewAfterId := none }
              | none => s1
    let s3 := scanMark { s2 with isDragging := true, userPanned := true } x y
    if s3.previewEnabled then previewShow s3 else s3

/-- `ViewportCanvas.pan_move`. -/
def panMove (s : State) (x y : ℤ) (now : ℚ) : State :=
  if s.pil.isNone || !s.isDragging then s
  else
    let z := zeroGuard s.zoom
    let s1 := scanDragto { s with userPanned := true } x y
    let s2 := if s1.previewEnabled then schedulePreviewRedraw s1 now else s1
    if s2.tileBox.isNone then
      scheduleDragEscapeRedraw { s2 with dragEscapePending := true } z now
    else
      let outside := viewportOutsideTile s2
      if s2.dragFreezeEnabled then
        if outside then
          if geOrInf (outsideAmountScreenPx s2 z) ((dragFreezeEscapeScreenPx : ℤ) : ℚ) then
            scheduleDragEscapeRedraw { s2 with dragEscapePending := true } z now
          else s2
        else s2
      else
        if outside then scheduleDragRedraw s2 z true now
        else if nearTileEdge s2 then scheduleDragRedraw s2 z false now
        else s2

/-- `ViewportCanvas.pan_end`. -/
def panEnd (s : State) : State :=
  if !s.isDragging then s
  else
    let s1 := { s with isDragging := false, dragEscapePending := false }
    let s2 := match s1.viewAfterId with
              | some i => { afterCancel s1 i with viewAfterId := none }
              | none => s1
    let s3 := match s2.previewAfterId with
              | some i => { afterCancel s2 i with previewAfterId := none }
              | none => s2
    let s4 := match s3.hqAfterId with
              | some i => { afterCancel s3 i with hqAfterId := none }
              | none => s3
    let s5 := scheduleRedraw s4 0 true
    let r := afterAdd s5 hqDelayMs .hqRedraw
    let s6 := { r.1 with hqAfterId := some r.2 }
    if s6.previewEnabled then previewHide s6 else s6

/-- `ViewportCanvas._hq_redraw_now`. -/
def hqRedrawNow (s : State) : State :=
  let s1 := { s with hqAfterId := none }
  if s1.isDragging then s1
  else if !s1.lastWasPreview then s1
  else scheduleRedraw s1 0 false

/-- `ViewportCanvas.set_image`. -/
def setImage (s : State) (pil : Dims) (recenter force : Bool) : State :=
  let s1 := { s with pil := some pil, pyr := buildPyramid pil }
  let s2 := if recenter then { s1 with userPanned := false } else s1
  scheduleRedraw { s2 with lastDrawKey := none, tileBox := none } 0 force

/-- `ViewportCanvas.zoom_fit`. -/
def zoomFit (s : State) : State :=
  match s.pil with
  | none => s
  | some pil =>
    let cw := max 1 s.canvasW
    let ch := max 1 s.canvasH
    if pil.w = 0 ∨ pil.h = 0 then s
    else
      let z := min ((cw : ℚ) / (pil.w : ℚ)) ((ch : ℚ) / (pil.h : ℚ))
      let z2 := max (1/2) (min 16 z)
      scheduleRedraw { s with zoom := z2, userPanned := false,
                              lastDrawKey := none, tileBox := none } 0 true

/-- The SHARP-relevant observation of the state: everything the SHARP layer
or its scheduling reads or owns, plus the pending `_do_redraw` handles. -/
structure SharpObs where
  pil : Option Dims
  zoom : ℚ
  scrollL : ℚ
  scrollT : ℚ
  canvasW : ℕ
  canvasH : ℕ
  padMode : PadMode
  tileBox : Option (ℤ × ℤ × ℤ × ℤ)
  viewAfterId : Option ℕ
  lastDrawKey : Option DrawKey
  tkImage : Option SharpRender
  sharpResamples : ℕ
  dragEscapePending : Bool
  forceNextDraw : Bool
  isDragging : Bool
  dragFreezeEnabled : Bool
  doIds : List ℕ
deriving DecidableEq, Repr

/-- Project the SHARP-relevant observation out of a state. -/
def sharpObs (s : State) : SharpObs :=
  ⟨s.pil, s.zoom, s.scrollL, s.scrollT, s.canvasW, s.canvasH, s.padMode, s.tileBox,
   s.viewAfterId, s.lastDrawKey, s.tkImage, s.sharpResamples, s.dragEscapePending,
   s.forceNextDraw, s.isDragging, s.dragFreezeEnabled, doRedrawIds s⟩

/-- A dragging state with a tile box covering the whole image and the view
scrolled over the image. -/
def draggingState : State :=
  { baseState with isDragging := true, tileBox := some (0, 0, 100, 100),
                   scrollL := 512, scrollT := 512,
                   scanScrollL := 512, scanScrollT := 512 }

/-- Characterisation of the selection loop on `List.range n`: it returns the
first index attaining the minimum score. -/
lemma pickFold_range_spec (bias lg : ℚ) :
    ∀ n : ℕ, 0 < n →
      ∃ m, pickFold bias lg (List.range n) = some m ∧ m < n ∧
        (∀ j < n, pyrScore bias lg m ≤ pyrScore bias lg j) ∧
        (∀ j < m, pyrScore bias lg m < pyrScore bias lg j) := by
  intro n
  induction n with
  | zero => intro h; exact absurd h (lt_irrefl 0)
  | succ n ih =>
    intro _
    rcases Nat.eq_zero_or_pos n with hn0 | hnpos
    · subst hn0
      refine ⟨0, ?_, Nat.zero_lt_one, ?_, ?_⟩
      · simp [pickFold, List.range_succ]
      · intro j hj
        interval_cases j
        exact le_refl _
      · intro j hj
        exact absurd hj (Nat.not_lt_zero j)
    · obtain ⟨m, hm, hmn, hle, hlt⟩ := ih hnpos
      have hstep : pickFold bias lg (List.range (n + 1)) =
          (fun best k =>
            match best with
            | none => some k
            | some b =>
              if pyrScore bias lg k < pyrScore bias lg b then some k else some b)
            (pickFold bias lg (List.range n)) n := by
        simp [pickFold, List.range_succ, List.foldl_append]
      rw [hm] at hstep
      by_cases hc : pyrScore bias lg n < pyrScore bias lg m
      · refine ⟨n, ?_, Nat.lt_succ_self n, ?_, ?_⟩
        · rw [hstep]; simp [hc]
        · intro j hj
          rcases Nat.lt_succ_iff_lt_or_eq.mp hj with hj' | hj'
          · exact le_of_lt (lt_of_lt_of_le hc (hle j hj'))
          · subst hj'; exact le_refl _
        · intro j hj
          exact lt_of_lt_of_le hc (hle j hj)
      · refine ⟨m, ?_, lt_trans hmn (Nat.lt_succ_self n), ?_, hlt⟩
        · rw [hstep]; simp [hc]
        · intro j hj
          rcases Nat.lt_succ_iff_lt_or_eq.mp hj with hj' | hj'
          · exact hle j hj'
          · subst hj'; exact le_of_not_lt hc

/-- A strictly larger bias never selects a strictly larger scale: the chosen
level index is monotone (non-decreasing) in the bias. -/
lemma pickPyrLevelIdx_mono (lg b₁ b₂ : ℚ) (hb : b₁ < b₂) (n : ℕ) (hn : 0 < n)
    (m₁ m₂ : ℕ)
    (h₁ : pickPyrLevelIdx b₁ lg n = some m₁)
    (h₂ : pickPyrLevelIdx b₂ lg n = some m₂) :
    m₁ ≤ m₂ := by
  obtain ⟨k₁, hk₁, hk₁n, hle₁, hlt₁⟩ := pickFold_range_spec b₁ lg n hn
  obtain ⟨k₂, hk₂, hk₂n, hle₂, hlt₂⟩ := pickFold_range_spec b₂ lg n hn
  rw [pickPyrLevelIdx, hk₁] at h₁
  rw [pickPyrLevelIdx, hk₂] at h₂
  have e₁ : m₁ = k₁ := (Option.some_injective _ h₁).symm
  have e₂ : m₂ = k₂ := (Option.some_injective _ h₂).symm
  subst e₁
  subst e₂
  by_contra hcon
  push_neg at hcon
  have hstrict : pyrScore b₁ lg m₁ < pyrScore b₁ lg m₂ := hlt₁ m₂ hcon
  have hweak : pyrScore b₂ lg m₂ ≤ pyrScore b₂ lg m₁ := hle₂ m₁ hk₁n
  have hmq : (m₂ : ℚ) < (m₁ : ℚ) := by exact_mod_cast hcon
  unfold pyrScore at hstrict hweak
  nlinarith [hstrict, hweak, hmq, hb]

/-- Either the halving loop ran out of fuel (produced exactly `fuel` extra
levels) or the last level of the pyramid has minimum dimension at most the
floor. -/
lemma buildPyramidAux_spec : ∀ (fuel : ℕ) (scale : ℚ) (w h : ℕ),
    (buildPyramidAux fuel scale w h).length = fuel ∨
    minDim ((buildPyramidAux fuel scale w h).getLastD (scale, ⟨w, h⟩)).2 ≤ pyrMinDim := by
  intro fuel
  induction fuel with
  | zero => intro scale w h; left; rfl
  | succ fuel ih =>
    intro scale w h
    by_cases hc : min w h ≤ pyrMinDim
    · right
      rw [buildPyramidAux, if_pos hc, List.getLastD_nil]
      exact hc
    · have hstep : buildPyramidAux (fuel + 1) scale w h =
          (scale * (1/2), ⟨max 1 (w / 2), max 1 (h / 2)⟩) ::
            buildPyramidAux fuel (scale * (1/2)) (max 1 (w / 2)) (max 1 (h / 2)) := by
        rw [buildPyramidAux, if_neg hc]
      rcases ih (scale * (1/2)) (max 1 (w / 2)) (max 1 (h / 2)) with hlen | hmin
      · left
        rw [hstep, List.length_cons, hlen]
      · right
        rw [hstep, List.getLastD_cons]
        exact hmin

/-- CLAIM C3 (counterexample): for an 8192×8192 source image the pyramid has
five levels and its last level is 512×512, whose minimum dimension exceeds
the configured floor of 256 — the claim as stated (one level, or last level
minimum dimension ≤ 256) is false. -/
theorem pyramid_floor_counterexample :
    ¬ ((buildPyramid ⟨8192, 8192⟩).length = 1 ∨
       minDim ((buildPyramid ⟨8192, 8192⟩).getLastD (1, ⟨8192, 8192⟩)).2 ≤ pyrMinDim) := by
  decide

/-- CLAIM C3 (amended): for every source image the pyramid built by
`_build_pyramid` either has exactly one level, or the minimum dimension of
its last level is at most the configured floor of 256, or the configured
level count of 5 was reached. -/
theorem pyramid_floor_amended (pil : Dims) :
    (buildPyramid pil).length = 1 ∨
    minDim ((buildPyramid pil).getLastD (1, pil)).2 ≤ pyrMinDim ∨
    (buildPyramid pil).length = pyrLevels := by
  rcases buildPyramidAux_spec (pyrLevels - 1) 1 pil.w pil.h with hlen | hmin
  · right; right
    rw [buildPyramid, List.length_cons, hlen]
    decide
  · right; left
    have hrw : (buildPyramid pil).getLastD (1, pil) =
        (buildPyramidAux (pyrLevels - 1) 1 pil.w pil.h).getLastD (1, ⟨pil.w, pil.h⟩) := by
      rw [buildPyramid, List.getLastD_cons]
    rw [hrw]
    exact hmin

/-- CLAIM C4: for every zoom (represented by its base-2 logarithm `lg`) and
every non-empty pyramid of `n` levels (level `k` having scale `(1/2)^k`), the
scale selected by the preview selector (bias `0.55 + 0.95`) is at most the
scale selected by the sharp selector (bias `0.55`): the preview path never
picks a higher-resolution level than the sharp path at the same zoom. -/
theorem preview_level_scale_le_sharp (lg : ℚ) (n : ℕ) (hn : 0 < n) :
    ∃ ks kp, pickPyrLevelIdx pyrBiasDown lg n = some ks ∧
      pickPyrLevelIdx (pyrBiasDown + previewBiasDownExtra) lg n = some kp ∧
      ((1 : ℚ)/2) ^ kp ≤ ((1 : ℚ)/2) ^ ks := by
  obtain ⟨ks, hks, _, _, _⟩ := pickFold_range_spec pyrBiasDown lg n hn
  obtain ⟨kp, hkp, _, _, _⟩ :=
    pickFold_range_spec (pyrBiasDown + previewBiasDownExtra) lg n hn
  refine ⟨ks, kp, hks, hkp, ?_⟩
  have hmono : ks ≤ kp := by
    refine pickPyrLevelIdx_mono lg pyrBiasDown (pyrBiasDown + previewBiasDownExtra)
      ?_ n hn ks kp hks hkp
    have : (0 : ℚ) < previewBiasDownExtra := by norm_num [previewBiasDownExtra]
    linarith
  exact pow_le_pow_of_le_one (by norm_num) (by norm_num) hmono

/-- Witness for C4: a concrete instantiation at `lg = 0` (zoom 1) and a
two-level pyramid. -/
theorem preview_level_scale_le_sharp_witness :
    0 < 2 ∧
    ∃ ks kp, pickPyrLevelIdx pyrBiasDown 0 2 = some ks ∧
      pickPyrLevelIdx (pyrBiasDown + previewBiasDownExtra) 0 2 = some kp ∧
      ((1 : ℚ)/2) ^ kp ≤ ((1 : ℚ)/2) ^ ks :=
  ⟨by norm_num, preview_level_scale_le_sharp 0 2 (by norm_num)⟩

/-! ## Viewport state

The mutable attributes of a `ViewportCanvas` instance, together with a model
of the Tk timer queue (`after` / `after_cancel`) and of the two canvas image
items.  Pixel data is abstracted: a render is recorded as the geometry the
code would hand to PIL. -/

/-- CLAIM C7: `_visible_rect_image_coords` returns `none` exactly when no
image is loaded, and whenever an image of size `w × h` is loaded it returns
a rectangle contained in `[0, w] × [0, h]` — for every zoom and every scroll
position. -/
theorem visible_rect_clipped (s : State) :
    (visibleRectImageCoords s = none ↔ s.pil = none) ∧
    (∀ pil v, s.pil = some pil → visibleRectImageCoords s = some v →
      0 ≤ v.l ∧ v.l ≤ (pil.w : ℚ) ∧ 0 ≤ v.r ∧ v.r ≤ (pil.w : ℚ) ∧
      0 ≤ v.t ∧ v.t ≤ (pil.h : ℚ) ∧ 0 ≤ v.b ∧ v.b ≤ (pil.h : ℚ)) := by
  constructor
  · cases hp : s.pil with
    | none => simp [visibleRectImageCoords, hp]
    | some pil => simp [visibleRectImageCoords, hp]
  · intro pil v hp hv
    rw [visibleRectImageCoords, hp] at hv
    have hv' := Option.some_injective _ hv
    subst hv'
    have hw : (0 : ℚ) ≤ (pil.w : ℚ) := by positivity
    have hh : (0 : ℚ) ≤ (pil.h : ℚ) := by positivity
    refine ⟨le_max_left _ _, max_le hw (min_le_left _ _),
            le_max_left _ _, max_le hw (min_le_left _ _),
            le_max_left _ _, max_le hh (min_le_left _ _),
            le_max_left _ _, max_le hh (min_le_left _ _)⟩

/-- Witness for C7: the concrete baseline state, where the visible rectangle
degenerates to the image's top-left corner. -/
theorem visible_rect_clipped_witness :
    ∃ v, visibleRectImageCoords baseState = some v ∧
      (0 ≤ v.l ∧ v.l ≤ ((100 : ℕ) : ℚ) ∧ 0 ≤ v.r ∧ v.r ≤ ((100 : ℕ) : ℚ) ∧
       0 ≤ v.t ∧ v.t ≤ ((100 : ℕ) : ℚ) ∧ 0 ≤ v.b ∧ v.b ≤ ((100 : ℕ) : ℚ)) := by
  have hv : visibleRectImageCoords baseState = some ⟨0, 0, 0, 0, 512, 512⟩ := by
    norm_num [visibleRectImageCoords, baseState, computePad, zeroGuard, min_def, max_def]
  exact ⟨_, hv, (visible_rect_clipped baseState).2 ⟨100, 100⟩ _ rfl hv⟩

/-! ## Timers and SHARP-redraw scheduling -/

/-- Timers whose handles are all below the fresh-handle counter are
untouched when a fresh handle is cancelled. -/
lemma filter_ne_fresh {l : List Timer} {n : ℕ} (h : ∀ t ∈ l, t.id < n) :
    l.filter (fun t => t.id != n) = l := by
  apply List.filter_eq_self.mpr
  intro t ht
  simpa [bne_iff_ne] using Nat.ne_of_lt (h t ht)

/-- Cancelling the unique pending `_do_redraw` handle leaves no pending
`_do_redraw` timer. -/
lemma doRedraw_gone_after_cancel {l : List Timer} {i : ℕ}
    (h : (l.filter isDoRedraw).map Timer.id = [i]) :
    (l.filter (fun t => t.id != i)).filter isDoRedraw = [] := by
  have hcomm : (l.filter (fun t => t.id != i)).filter isDoRedraw
      = (l.filter isDoRedraw).filter (fun t => t.id != i) := by
    rw [List.filter_filter, List.filter_filter]
    apply List.filter_congr
    intro a _
    rw [Bool.and_comm]
  rw [hcomm]
  rcases hl : l.filter isDoRedraw with _ | ⟨t0, rest⟩
  · simp
  · rw [hl] at h
    rcases rest with _ | ⟨t1, rest'⟩
    · simp only [List.map_cons, List.map_nil, List.cons.injEq, and_true] at h
      simp [List.filter, h]
    · simp at h

/-- Fields of the state that `schedule_redraw` never touches. -/
lemma scheduleRedraw_preserves (s : State) (d : ℤ) (f : Bool) :
    (scheduleRedraw s d f).zoom = s.zoom ∧
    (scheduleRedraw s d f).scrollL = s.scrollL ∧
    (scheduleRedraw s d f).scrollT = s.scrollT ∧
    (scheduleRedraw s d f).canvasW = s.canvasW ∧
    (scheduleRedraw s d f).canvasH = s.canvasH ∧
    (scheduleRedraw s d f).padMode = s.padMode ∧
    (scheduleRedraw s d f).pil = s.pil ∧
    (scheduleRedraw s d f).tileBox = s.tileBox ∧
    (scheduleRedraw s d f).tkImage = s.tkImage ∧
    (scheduleRedraw s d f).lastDrawKey = s.lastDrawKey ∧
    (scheduleRedraw s d f).sharpResamples = s.sharpResamples := by
  rw [scheduleRedraw]
  cases s.viewAfterId <;> simp [afterAdd, afterCancel]

/-- CLAIM C9: calling `schedule_redraw` twice in immediate succession (with
the same parameters, before either callback fires) cancels the first pending
callback: afterwards exactly one `_do_redraw` timer is outstanding — the one
scheduled by the second call — and the handle created by the first call is no
longer pending.  Hypotheses: pending handles are below the fresh-handle
counter, and the pending `_do_redraw` timers are exactly the tracked
`_view_after_id`. -/
theorem schedule_redraw_single_pending (s : State) (d : ℤ) (f : Bool)
    (hFresh : ∀ t ∈ s.timers, t.id < s.nextTimerId)
    (hInv : doRedrawIds s = s.viewAfterId.toList) :
    (scheduleRedraw (scheduleRedraw s d f) d f).viewAfterId = some (s.nextTimerId + 1) ∧
    doRedrawIds (scheduleRedraw (scheduleRedraw s d f) d f) = [s.nextTimerId + 1] ∧
    s.nextTimerId ∉ (scheduleRedraw (scheduleRedraw s d f) d f).timers.map Timer.id := by
  cases hva : s.viewAfterId with
  | none =>
    have hnil : s.timers.filter isDoRedraw = [] := by
      have h := hInv
      rw [hva] at h
      simpa [doRedrawIds] using h
    have hself : s.timers.filter (fun t => t.id != s.nextTimerId) = s.timers :=
      filter_ne_fresh hFresh
    refine ⟨?_, ?_, ?_⟩
    · simp [scheduleRedraw, afterAdd, afterCancel, hva]
    · simp [scheduleRedraw, afterAdd, afterCancel, hva, doRedrawIds,
        List.filter_append, hself, hnil, isDoRedraw]
    · intro hmem
      simp only [scheduleRedraw, afterAdd, afterCancel, hva, List.filter_append,
        hself, List.map_append, List.mem_append, List.mem_map] at hmem
      rcases hmem with (⟨t, ht, hid⟩ | ⟨t, ht, hid⟩) | ⟨t, ht, hid⟩
      · exact absurd hid (Nat.ne_of_lt (hFresh t ht))
      · rcases List.mem_filter.mp ht with ⟨htm, hp⟩
        rcases List.mem_singleton.mp htm with rfl
        simp at hp
      · rcases List.mem_singleton.mp ht with rfl
        simp at hid
  | some i =>
    have hone : (s.timers.filter isDoRedraw).map Timer.id = [i] := by
      have h := hInv
      rw [hva] at h
      simpa [doRedrawIds] using h
    have hgone : (s.timers.filter (fun t => t.id != i)).filter isDoRedraw = [] :=
      doRedraw_gone_after_cancel hone
    have hsub : ∀ t ∈ s.timers.filter (fun t => t.id != i), t.id < s.nextTimerId := by
      intro t ht
      exact hFresh t (List.mem_of_mem_filter ht)
    have hself : (s.timers.filter (fun t => t.id != i)).filter
        (fun t => t.id != s.nextTimerId) = s.timers.filter (fun t => t.id != i) :=
      filter_ne_fresh hsub
    refine ⟨?_, ?_, ?_⟩
    · simp [scheduleRedraw, afterAdd, afterCancel, hva]
    · simp [scheduleRedraw, afterAdd, afterCancel, hva, doRedrawIds,
        List.filter_append, hself, hgone, isDoRedraw]
    · intro hmem
      simp only [scheduleRedraw, afterAdd, afterCancel, hva, List.filter_append,
        hself, List.map_append, List.mem_append, List.mem_map] at hmem
      rcases hmem with (⟨t, ht, hid⟩ | ⟨t, ht, hid⟩) | ⟨t, ht, hid⟩
      · exact absurd hid (Nat.ne_of_lt (hsub t ht))
      · rcases List.mem_filter.mp ht with ⟨htm, hp⟩
        rcases List.mem_singleton.mp htm with rfl
        simp at hp
      · rcases List.mem_singleton.mp ht with rfl
        simp at hid

/-- Witness for C9: the baseline idle state (no pending timers). -/
theorem schedule_redraw_single_pending_witness :
    (∀ t ∈ baseState.timers, t.id < baseState.nextTimerId) ∧
    doRedrawIds baseState = baseState.viewAfterId.toList ∧
    ((scheduleRedraw (scheduleRedraw baseState 0 false) 0 false).viewAfterId =
        some (baseState.nextTimerId + 1) ∧
      doRedrawIds (scheduleRedraw (scheduleRedraw baseState 0 false) 0 false) =
        [baseState.nextTimerId + 1] ∧
      baseState.nextTimerId ∉
        (scheduleRedraw (scheduleRedraw baseState 0 false) 0 false).timers.map Timer.id) :=
  ⟨by simp [baseState], by simp [baseState, doRedrawIds],
    schedule_redraw_single_pending baseState 0 false (by simp [baseState])
      (by simp [baseState, doRedrawIds])⟩

/-! ## Zoom entry points -/

/-- CLAIM C10 (counterexample): `set_zoom(0, force=False)` on a viewport at
zoom `0.5` is not a no-op, although `clamp(0) = 0.5` equals the current zoom:
the `z or 1.0` zero-guard turns the argument into `1.0` first, so the zoom
changes to `1` and a redraw is scheduled. -/
theorem set_zoom_noop_counterexample :
    |max (1/2) (min 16 (0 : ℚ)) - ({ baseState with zoom := 1/2 } : State).zoom|
        < 1/1000000000 ∧
    setZoom { baseState with zoom := 1/2 } 0 false false ≠
      { baseState with zoom := 1/2 } := by
  constructor
  · norm_num [baseState, min_def, max_def]
  · intro h
    have hz := congrArg State.zoom h
    norm_num [setZoom, zeroGuard, scheduleRedraw, afterAdd, afterCancel, baseState,
      min_def, max_def, abs] at hz

/-- CLAIM C10 (amended): for every nonzero requested value whose clamp to
`[0.5, 16]` is within `1e-9` of the current zoom, `set_zoom` with
`force=False` is a complete no-op (state unchanged, regardless of
`recenter`). -/
theorem set_zoom_noop_amended (s : State) (z : ℚ) (recenter : Bool)
    (hz0 : z ≠ 0)
    (hnear : |max (1/2) (min 16 z) - s.zoom| < 1/1000000000) :
    setZoom s z recenter false = s := by
  simp only [setZoom, zeroGuard]
  rw [if_neg hz0]
  exact if_pos ⟨hnear, by simp⟩

/-- Witness for the amended C10: requesting the current zoom exactly. -/
theorem set_zoom_noop_amended_witness :
    (4 : ℚ) ≠ 0 ∧
    |max (1/2) (min 16 (4 : ℚ)) - baseState.zoom| < 1/1000000000 ∧
    setZoom baseState 4 false false = baseState := by
  refine ⟨by norm_num, ?_, ?_⟩
  · norm_num [baseState, min_def, max_def]
  · exact set_zoom_noop_amended baseState 4 false (by norm_num)
      (by norm_num [baseState, min_def, max_def])

/-- CLAIM C6 (counterexample): with zoom `16 - 1e-10` and one full notch up
(`d = 120`, so `ratio = 1.125` exactly), the clamped product is `16`, which
differs from the formula's prediction: by the `1e-9` dead-band the code
leaves the zoom at `16 - 1e-10` instead. -/
theorem wheel_zoom_formula_counterexample :
    (1 : ℚ)/1000000000 ≤ |(120 : ℚ)| ∧
    (wheelZoom { baseState with zoom := 16 - 1/10000000000 } 0 0 120 (9/8)).zoom ≠
      max (1/2) (min 16 (zeroGuard ({ baseState with
        zoom := 16 - 1/10000000000 } : State).zoom * (9/8))) := by
  constructor
  · norm_num
  · norm_num [wheelZoom, baseState, zeroGuard, min_def, max_def, abs]

/-- CLAIM C6 (amended): for every accepted wheel delta (`|d| ≥ 1e-9`), the
zoom after `wheel_zoom` equals `clamp(oldZoom * 1.125^(normDelta d / 120),
0.5, 16)` — with `oldZoom` the zero-guarded current zoom and the power
supplied as `ratio` — unless that clamped value is within `1e-9` of
`oldZoom`, in which case the zoom is left unchanged. -/
theorem wheel_zoom_formula (s : State) (cx cy : ℤ) (d ratio : ℚ)
    (hd : 1/1000000000 ≤ |d|) :
    (wheelZoom s cx cy d ratio).zoom =
      if |max (1/2) (min 16 (zeroGuard s.zoom * ratio)) - zeroGuard s.zoom|
          < 1/1000000000
      then s.zoom
      else max (1/2) (min 16 (zeroGuard s.zoom * ratio)) := by
  rw [wheelZoom]
  rw [if_neg (not_lt.mpr hd)]
  by_cases hnear :
      |max (1/2) (min 16 (zeroGuard s.zoom * ratio)) - zeroGuard s.zoom| < 1/1000000000
  · rw [if_pos hnear, if_pos hnear]
  · rw [if_neg hnear, if_neg hnear]
    cases hp : s.pil with
    | none => exact (scheduleRedraw_preserves _ 0 true).1
    | some pil => exact (scheduleRedraw_preserves _ 0 true).1

/-- Witness for the amended C6: one notch up from zoom 4 yields zoom 4.5. -/
theorem wheel_zoom_formula_witness :
    (1 : ℚ)/1000000000 ≤ |(120 : ℚ)| ∧
    (wheelZoom baseState 0 0 120 (9/8)).zoom =
      if |max (1/2) (min 16 (zeroGuard baseState.zoom * (9/8))) - zeroGuard baseState.zoom|
          < 1/1000000000
      then baseState.zoom
      else max (1/2) (min 16 (zeroGuard baseState.zoom * (9/8))) :=
  ⟨by norm_num, wheel_zoom_formula baseState 0 0 120 (9/8) (by norm_num)⟩

/-- Net effect of the main branch of `wheel_zoom` on the fields that
determine the cursor's image point. -/
lemma wheelZoom_main_fields (s : State) (pil : Dims) (cx cy : ℤ) (d ratio : ℚ)
    (hp : s.pil = some pil)
    (hd : ¬ (|d| < 1/1000000000))
    (hnear : ¬ (|max (1/2) (min 16 (zeroGuard s.zoom * ratio)) - zeroGuard s.zoom|
      < 1/1000000000)) :
    (wheelZoom s cx cy d ratio).zoom = wheelNewZoom s ratio ∧
    (wheelZoom s cx cy d ratio).canvasW = s.canvasW ∧
    (wheelZoom s cx cy d ratio).canvasH = s.canvasH ∧
    (wheelZoom s cx cy d ratio).padMode = s.padMode ∧
    (wheelZoom s cx cy d ratio).scrollL =
      clamp01 (wheelLeftNew s cx ratio / max 1 ((wheelScrollW s pil ratio : ℤ) : ℚ)) *
        ((wheelScrollW s pil ratio : ℤ) : ℚ) ∧
    (wheelZoom s cx cy d ratio).scrollT =
      clamp01 (wheelTopNew s cy ratio / max 1 ((wheelScrollH s pil ratio : ℤ) : ℚ)) *
        ((wheelScrollH s pil ratio : ℤ) : ℚ) := by
  simp only [wheelZoom]
  rw [if_neg hd, if_neg hnear, hp]
  refine ⟨?_, ?_, ?_, ?_, ?_, ?_⟩
  · exact ((scheduleRedraw_preserves _ 0 true).1).trans rfl
  · exact ((scheduleRedraw_preserves _ 0 true).2.2.2.1).trans rfl
  · exact ((scheduleRedraw_preserves _ 0 true).2.2.2.2.1).trans rfl
  · exact ((scheduleRedraw_preserves _ 0 true).2.2.2.2.2.1).trans rfl
  · exact ((scheduleRedraw_preserves _ 0 true).2.1).trans rfl
  · exact ((scheduleRedraw_preserves _ 0 true).2.2.1).trans rfl

/-- A value already in `[0, 1]` passes through `_clamp01` unchanged. -/
lemma clamp01_eq_self {v : ℚ} (h0 : 0 ≤ v) (h1 : v ≤ 1) : clamp01 v = v := by
  rw [clamp01, if_neg (not_lt.mpr h0), if_neg (not_lt.mpr h1)]

/-- CLAIM C5 (counterexample): with the cursor at the canvas origin over the
pad area (its image point is `-128`, outside the image), one notch of wheel
zoom-in moves the image point under the cursor by `128/9 ≈ 14.2` image
pixels: the scroll solve is clamped at the scroll-region boundary by
`_clamp01`, so the claim as stated (every cursor position) is false. -/
theorem wheel_zoom_cursor_counterexample :
    ¬ (|(imagePtAt (wheelZoom baseState 0 0 120 (9/8)) 0 0).1 -
        (imagePtAt baseState 0 0).1| < 1) := by
  have h1 : wheelZoom baseState 0 0 120 (9/8) =
      scheduleRedraw
        { baseState with zoom := 9/2, lastDrawKey := none, tileBox := none,
                         scrollRegionW := 1474, scrollRegionH := 1474,
                         scrollL := 0, scrollT := 0, userPanned := true } 0 true := by
    simp only [wheelZoom]
    norm_num [baseState, zeroGuard, min_def, max_def, abs, ensureScrollregion,
      computePad, scrollregionWH, pyInt, xviewMoveto, yviewMoveto, clamp01]
  rw [h1]
  have h2 := scheduleRedraw_preserves
    { baseState with zoom := 9/2, lastDrawKey := none, tileBox := none,
                     scrollRegionW := 1474, scrollRegionH := 1474,
                     scrollL := 0, scrollT := 0, userPanned := true } 0 true
  obtain ⟨hz, hl, ht, hw, hh, hm, -, -, -, -, -⟩ := h2
  rw [imagePtAt, imagePtAt, hz, hl, hw, hh, hm]
  norm_num [baseState, zeroGuard, computePad, abs, min_def, max_def]

/-- CLAIM C5 (amended): for every loaded image, wheel delta and ratio, and
every cursor position on the canvas whose image point before the call lies
inside the image (pad mode auto, zoom within `[0.5, 16]`), the image point
under the cursor moves by less than one image pixel (in the exact model it
does not move at all on the accepted paths). -/
theorem wheel_zoom_cursor_stationary (s : State) (pil : Dims) (cx cy : ℤ) (d ratio : ℚ)
    (hp : s.pil = some pil)
    (hpad : s.padMode = PadMode.auto)
    (hz1 : 1/2 ≤ s.zoom) (hz2 : s.zoom ≤ 16)
    (hcx0 : 0 ≤ cx) (hcx1 : cx < ((max 1 s.canvasW : ℕ) : ℤ))
    (hcy0 : 0 ≤ cy) (hcy1 : cy < ((max 1 s.canvasH : ℕ) : ℤ))
    (hix0 : 0 ≤ (imagePtAt s cx cy).1) (hix1 : (imagePtAt s cx cy).1 ≤ (pil.w : ℚ))
    (hiy0 : 0 ≤ (imagePtAt s cx cy).2) (hiy1 : (imagePtAt s cx cy).2 ≤ (pil.h : ℚ)) :
    |(imagePtAt (wheelZoom s cx cy d ratio) cx cy).1 - (imagePtAt s cx cy).1| < 1 ∧
    |(imagePtAt (wheelZoom s cx cy d ratio) cx cy).2 - (imagePtAt s cx cy).2| < 1 := by
  have hz0 : s.zoom ≠ 0 := by
    intro h
    rw [h] at hz1
    norm_num at hz1
  have hzg : zeroGuard s.zoom = s.zoom := if_neg hz0
  by_cases hd : |d| < 1/1000000000
  · have he : wheelZoom s cx cy d ratio = s := by
      simp only [wheelZoom]
      rw [if_pos hd]
    rw [he]
    constructor <;> simp
  · by_cases hnear : |max (1/2) (min 16 (zeroGuard s.zoom * ratio)) - zeroGuard s.zoom|
        < 1/1000000000
    · have he : wheelZoom s cx cy d ratio = s := by
        simp only [wheelZoom]
        rw [if_neg hd, if_pos hnear]
      rw [he]
      constructor <;> simp
    · obtain ⟨hzf, hcw, hch, hpm, hsl, hst⟩ :=
        wheelZoom_main_fields s pil cx cy d ratio hp hd hnear
      have hnz05 : (1:ℚ)/2 ≤ wheelNewZoom s ratio := le_max_left _ _
      have hnzpos : (0:ℚ) < wheelNewZoom s ratio := by linarith
      have hnzne : wheelNewZoom s ratio ≠ 0 := ne_of_gt hnzpos
      have hnzg : zeroGuard (wheelNewZoom s ratio) = wheelNewZoom s ratio := if_neg hnzne
      have hpadfold : computePad (max 1 s.canvasW) (max 1 s.canvasH) s.padMode
          = wheelPad s := rfl
      have hpadeq : wheelPad s = ((max (max 1 s.canvasW) (max 1 s.canvasH) : ℕ) : ℤ) := by
        rw [wheelPad, hpad]
        rfl
      have hpad1 : (1:ℤ) ≤ wheelPad s := by
        rw [hpadeq]
        have h1 : (1:ℕ) ≤ max 1 s.canvasW := le_max_left _ _
        have h2 : max 1 s.canvasW ≤ max (max 1 s.canvasW) (max 1 s.canvasH) := le_max_left _ _
        exact_mod_cast le_trans h1 h2
      have hpad1q : (1:ℚ) ≤ ((wheelPad s : ℤ) : ℚ) := by exact_mod_cast hpad1
      have hcxpad : (cx:ℚ) < ((wheelPad s : ℤ) : ℚ) := by
        have h2 : ((max 1 s.canvasW : ℕ) : ℤ) ≤ wheelPad s := by
          rw [hpadeq]
          exact_mod_cast le_max_left (max 1 s.canvasW) (max 1 s.canvasH)
        exact_mod_cast lt_of_lt_of_le hcx1 h2
      have hcypad : (cy:ℚ) < ((wheelPad s : ℤ) : ℚ) := by
        have h2 : ((max 1 s.canvasH : ℕ) : ℤ) ≤ wheelPad s := by
          rw [hpadeq]
          exact_mod_cast le_max_right (max 1 s.canvasW) (max 1 s.canvasH)
        exact_mod_cast lt_of_lt_of_le hcy1 h2
      have hcx0q : (0:ℚ) ≤ (cx:ℚ) := by exact_mod_cast hcx0
      have hcy0q : (0:ℚ) ≤ (cy:ℚ) := by exact_mod_cast hcy0
      have hIx : (imagePtAt s cx cy).1 =
          (s.scrollL + (cx:ℚ) - ((wheelPad s : ℤ) : ℚ)) / s.zoom := by
        simp only [imagePtAt, hzg, hpadfold]
      have hIy : (imagePtAt s cx cy).2 =
          (s.scrollT + (cy:ℚ) - ((wheelPad s : ℤ) : ℚ)) / s.zoom := by
        simp only [imagePtAt, hzg, hpadfold]
      rw [hIx] at hix0 hix1
      rw [hIy] at hiy0 hiy1
      have hWeq : wheelScrollW s pil ratio =
          max 1 (pyInt ((pil.w : ℚ) * wheelNewZoom s ratio)) + 2 * wheelPad s := by
        simp only [wheelScrollW, scrollregionWH, hnzg]
      have hHeq : wheelScrollH s pil ratio =
          max 1 (pyInt ((pil.h : ℚ) * wheelNewZoom s ratio)) + 2 * wheelPad s := by
        simp only [wheelScrollH, scrollregionWH, hnzg]
      have hpyW : pyInt ((pil.w : ℚ) * wheelNewZoom s ratio)
          = ⌊(pil.w : ℚ) * wheelNewZoom s ratio⌋ := by
        rw [pyInt, if_pos]
        positivity
      have hpyH : pyInt ((pil.h : ℚ) * wheelNewZoom s ratio)
          = ⌊(pil.h : ℚ) * wheelNewZoom s ratio⌋ := by
        rw [pyInt, if_pos]
        positivity
      have hflW : (pil.w : ℚ) * wheelNewZoom s ratio - 1 <
          ((max 1 ⌊(pil.w : ℚ) * wheelNewZoom s ratio⌋ : ℤ) : ℚ) := by
        have h1 : (pil.w : ℚ) * wheelNewZoom s ratio - 1 <
            (⌊(pil.w : ℚ) * wheelNewZoom s ratio⌋ : ℚ) := Int.sub_one_lt_floor _
        have h2 : ((⌊(pil.w : ℚ) * wheelNewZoom s ratio⌋ : ℤ) : ℚ) ≤
            ((max 1 ⌊(pil.w : ℚ) * wheelNewZoom s ratio⌋ : ℤ) : ℚ) := by
          exact_mod_cast le_max_right (1:ℤ) _
        linarith
      have hflH : (pil.h : ℚ) * wheelNewZoom s ratio - 1 <
          ((max 1 ⌊(pil.h : ℚ) * wheelNewZoom s ratio⌋ : ℤ) : ℚ) := by
        have h1 : (pil.h : ℚ) * wheelNewZoom s ratio - 1 <
            (⌊(pil.h : ℚ) * wheelNewZoom s ratio⌋ : ℚ) := Int.sub_one_lt_floor _
        have h2 : ((⌊(pil.h : ℚ) * wheelNewZoom s ratio⌋ : ℤ) : ℚ) ≤
            ((max 1 ⌊(pil.h : ℚ) * wheelNewZoom s ratio⌋ : ℤ) : ℚ) := by
          exact_mod_cast le_max_right (1:ℤ) _
        linarith
      have hW1f : (1:ℚ) ≤ ((max 1 ⌊(pil.w : ℚ) * wheelNewZoom s ratio⌋ : ℤ) : ℚ) := by
        exact_mod_cast le_max_left (1:ℤ) _
      have hH1f : (1:ℚ) ≤ ((max 1 ⌊(pil.h : ℚ) * wheelNewZoom s ratio⌋ : ℤ) : ℚ) := by
        exact_mod_cast le_max_left (1:ℤ) _
      have hWq : ((wheelScrollW s pil ratio : ℤ) : ℚ) =
          ((max 1 ⌊(pil.w : ℚ) * wheelNewZoom s ratio⌋ : ℤ) : ℚ) +
            2 * ((wheelPad s : ℤ) : ℚ) := by
        rw [hWeq, hpyW]
        push_cast
        ring
      have hHq : ((wheelScrollH s pil ratio : ℤ) : ℚ) =
          ((max 1 ⌊(pil.h : ℚ) * wheelNewZoom s ratio⌋ : ℤ) : ℚ) +
            2 * ((wheelPad s : ℤ) : ℚ) := by
        rw [hHeq, hpyH]
        push_cast
        ring
      have hW1 : (1:ℚ) ≤ ((wheelScrollW s pil ratio : ℤ) : ℚ) := by
        rw [hWq]
        linarith
      have hH1 : (1:ℚ) ≤ ((wheelScrollH s pil ratio : ℤ) : ℚ) := by
        rw [hHq]
        linarith
      have hWpos : (0:ℚ) < ((wheelScrollW s pil ratio : ℤ) : ℚ) := by linarith
      have hHpos : (0:ℚ) < ((wheelScrollH s pil ratio : ℤ) : ℚ) := by linarith
      have hln0 : 0 ≤ wheelLeftNew s cx ratio := by
        have hmul : 0 ≤ (s.scrollL + (cx:ℚ) - ((wheelPad s : ℤ) : ℚ)) / s.zoom *
            wheelNewZoom s ratio := mul_nonneg hix0 hnzpos.le
        simp only [wheelLeftNew, hzg]
        linarith
      have htn0 : 0 ≤ wheelTopNew s cy ratio := by
        have hmul : 0 ≤ (s.scrollT + (cy:ℚ) - ((wheelPad s : ℤ) : ℚ)) / s.zoom *
            wheelNewZoom s ratio := mul_nonneg hiy0 hnzpos.le
        simp only [wheelTopNew, hzg]
        linarith
      have hlnW : wheelLeftNew s cx ratio ≤ ((wheelScrollW s pil ratio : ℤ) : ℚ) := by
        have hmul : (s.scrollL + (cx:ℚ) - ((wheelPad s : ℤ) : ℚ)) / s.zoom *
            wheelNewZoom s ratio ≤ (pil.w : ℚ) * wheelNewZoom s ratio :=
          mul_le_mul_of_nonneg_right hix1 hnzpos.le
        simp only [wheelLeftNew, hzg]
        rw [hWq]
        linarith
      have htnH : wheelTopNew s cy ratio ≤ ((wheelScrollH s pil ratio : ℤ) : ℚ) := by
        have hmul : (s.scrollT + (cy:ℚ) - ((wheelPad s : ℤ) : ℚ)) / s.zoom *
            wheelNewZoom s ratio ≤ (pil.h : ℚ) * wheelNewZoom s ratio :=
          mul_le_mul_of_nonneg_right hiy1 hnzpos.le
        simp only [wheelTopNew, hzg]
        rw [hHq]
        linarith
      have hslv : (wheelZoom s cx cy d ratio).scrollL = wheelLeftNew s cx ratio := by
        rw [hsl, max_eq_right hW1,
          clamp01_eq_self (div_nonneg hln0 hWpos.le) ((div_le_one hWpos).mpr hlnW),
          div_mul_cancel₀ _ (ne_of_gt hWpos)]
      have hstv : (wheelZoom s cx cy d ratio).scrollT = wheelTopNew s cy ratio := by
        rw [hst, max_eq_right hH1,
          clamp01_eq_self (div_nonneg htn0 hHpos.le) ((div_le_one hHpos).mpr htnH),
          div_mul_cancel₀ _ (ne_of_gt hHpos)]
      constructor
      · have hafter : (imagePtAt (wheelZoom s cx cy d ratio) cx cy).1 =
            (s.scrollL + (cx:ℚ) - ((wheelPad s : ℤ) : ℚ)) / s.zoom := by
          simp only [imagePtAt, hzf, hnzg, hcw, hch, hpm, hslv, hpadfold,
            wheelLeftNew, hzg]
          rw [show ((wheelPad s : ℤ) : ℚ) +
              (s.scrollL + (cx:ℚ) - ((wheelPad s : ℤ) : ℚ)) / s.zoom *
                wheelNewZoom s ratio - (cx:ℚ) + (cx:ℚ) - ((wheelPad s : ℤ) : ℚ) =
              (s.scrollL + (cx:ℚ) - ((wheelPad s : ℤ) : ℚ)) / s.zoom *
                wheelNewZoom s ratio from by ring]
          exact mul_div_cancel_right₀ _ hnzne
        rw [hafter, hIx]
        simp
      · have hafter : (imagePtAt (wheelZoom s cx cy d ratio) cx cy).2 =
            (s.scrollT + (cy:ℚ) - ((wheelPad s : ℤ) : ℚ)) / s.zoom := by
          simp only [imagePtAt, hzf, hnzg, hcw, hch, hpm, hstv, hpadfold,
            wheelTopNew, hzg]
          rw [show ((wheelPad s : ℤ) : ℚ) +
              (s.scrollT + (cy:ℚ) - ((wheelPad s : ℤ) : ℚ)) / s.zoom *
                wheelNewZoom s ratio - (cy:ℚ) + (cy:ℚ) - ((wheelPad s : ℤ) : ℚ) =
              (s.scrollT + (cy:ℚ) - ((wheelPad s : ℤ) : ℚ)) / s.zoom *
                wheelNewZoom s ratio from by ring]
          exact mul_div_cancel_right₀ _ hnzne
        rw [hafter, hIy]
        simp

/-- Witness for the amended C5: the baseline state scrolled so the image is
in view, with the cursor at canvas point `(256, 256)`, whose image point
`(64, 64)` is inside the 100×100 image. -/
theorem wheel_zoom_cursor_stationary_witness :
    (({ baseState with scrollL := 512, scrollT := 512 } : State).pil = some ⟨100, 100⟩ ∧
      ({ baseState with scrollL := 512, scrollT := 512 } : State).padMode = PadMode.auto ∧
      (1:ℚ)/2 ≤ ({ baseState with scrollL := 512, scrollT := 512 } : State).zoom ∧
      ({ baseState with scrollL := 512, scrollT := 512 } : State).zoom ≤ 16 ∧
      0 ≤ (imagePtAt { baseState with scrollL := 512, scrollT := 512 } 256 256).1 ∧
      (imagePtAt { baseState with scrollL := 512, scrollT := 512 } 256 256).1
        ≤ ((100:ℕ) : ℚ)) ∧
    |(imagePtAt (wheelZoom { baseState with scrollL := 512, scrollT := 512 } 256 256
        120 (9/8)) 256 256).1 -
      (imagePtAt { baseState with scrollL := 512, scrollT := 512 } 256 256).1| < 1 ∧
    |(imagePtAt (wheelZoom { baseState with scrollL := 512, scrollT := 512 } 256 256
        120 (9/8)) 256 256).2 -
      (imagePtAt { baseState with scrollL := 512, scrollT := 512 } 256 256).2| < 1 := by
  have hx0 : 0 ≤ (imagePtAt { baseState with scrollL := 512, scrollT := 512 } 256 256).1 := by
    norm_num [imagePtAt, baseState, zeroGuard, computePad]
  have hx1 : (imagePtAt { baseState with scrollL := 512, scrollT := 512 } 256 256).1
      ≤ ((100:ℕ) : ℚ) := by
    norm_num [imagePtAt, baseState, zeroGuard, computePad]
  have hy0 : 0 ≤ (imagePtAt { baseState with scrollL := 512, scrollT := 512 } 256 256).2 := by
    norm_num [imagePtAt, baseState, zeroGuard, computePad]
  have hy1 : (imagePtAt { baseState with scrollL := 512, scrollT := 512 } 256 256).2
      ≤ ((100:ℕ) : ℚ) := by
    norm_num [imagePtAt, baseState, zeroGuard, computePad]
  refine ⟨⟨rfl, rfl, by norm_num [baseState], by norm_num [baseState], hx0, hx1⟩, ?_⟩
  exact wheel_zoom_cursor_stationary { baseState with scrollL := 512, scrollT := 512 }
    ⟨100, 100⟩ 256 256 120 (9/8) rfl rfl
    (by norm_num [baseState]) (by norm_num [baseState])
    (by norm_num) (by norm_num [baseState]) (by norm_num) (by norm_num [baseState])
    hx0 hx1 hy0 hy1

/-! ## The SHARP draw path -/

lemma quantizeFloor_le {v q : ℤ} (hq : 0 < q) : quantizeFloor v q ≤ v := by
  rw [quantizeFloor, Int.fdiv_eq_ediv _ hq.le]
  have h1 := Int.ediv_add_emod v q
  have h2 := Int.emod_nonneg v (ne_of_gt hq)
  rw [mul_comm]
  linarith

lemma le_quantizeCeil {v q : ℤ} (hq : 0 < q) : v ≤ quantizeCeil v q := by
  rw [quantizeCeil, Int.fdiv_eq_ediv _ hq.le]
  have h1 := Int.ediv_add_emod (v + q - 1) q
  have h2 := Int.emod_lt_of_pos (v + q - 1) hq
  rw [mul_comm]
  linarith

lemma pyInt_le {q : ℚ} (h : 0 ≤ q) : (pyInt q : ℚ) ≤ q := by
  rw [pyInt, if_pos h]
  exact Int.floor_le q

lemma pyInt_nonneg {q : ℚ} (h : 0 ≤ q) : 0 ≤ pyInt q := by
  rw [pyInt, if_pos h]
  exact Int.floor_nonneg.mpr h

lemma screenToImagePx_pos (px : ℤ) (z : ℚ) : 0 < screenToImagePx px z :=
  lt_of_lt_of_le zero_lt_one (le_max_left _ _)

lemma scaledDragParams_margin (z : ℚ) : 80 ≤ (scaledDragParams z).1 := by
  simp only [scaledDragParams]
  exact le_max_left _ _

lemma scaledDragParams_quant (z : ℚ) : 1 ≤ (scaledDragParams z).2.1 := by
  simp only [scaledDragParams]
  exact le_trans (by norm_num) (le_max_left (8:ℤ) _)

/-- The truncated-and-nudged high edge of the margin rectangle lies at or
beyond the clipped visible edge, provided the margin pushes the raw edge at
least one image pixel further out. -/
lemma crop_upper_bound (w : ℕ) (rawV rawR : ℚ)
    (hgap : rawV + 1 ≤ rawR) :
    max 0 (min (w : ℚ) rawV) ≤ (pyInt (max 0 (min (w : ℚ) rawR) + 999/1000) : ℚ) := by
  have hw0q : (0:ℚ) ≤ (w:ℚ) := by positivity
  rcases le_or_lt (w:ℚ) rawR with hWr | hWr
  · rw [min_eq_left hWr, max_eq_right hw0q]
    have hfr : (⌊(999/1000 : ℚ)⌋ : ℤ) = 0 := by
      rw [Int.floor_eq_zero_iff]
      constructor <;> norm_num
    have hT : pyInt ((w:ℚ) + 999/1000) = (w:ℤ) := by
      rw [pyInt, if_pos (by linarith),
        show ((w:ℚ) + 999/1000) = (999/1000 : ℚ) + ((w:ℤ):ℚ) from by push_cast; ring,
        Int.floor_add_int, hfr]
      ring
    rw [hT]
    push_cast
    exact max_le hw0q (min_le_left _ _)
  · rw [min_eq_right hWr.le]
    rcases le_or_lt rawR 1 with hr1 | hr1
    · have hv0 : max 0 (min (w:ℚ) rawV) ≤ 0 :=
        max_le le_rfl (le_trans (min_le_right _ _) (by linarith))
      have harg : (0:ℚ) ≤ max 0 rawR + 999/1000 := by
        have := le_max_left (0:ℚ) rawR
        linarith
      have hT0 : (0:ℚ) ≤ (pyInt (max 0 rawR + 999/1000) : ℚ) := by
        exact_mod_cast pyInt_nonneg harg
      linarith
    · rw [max_eq_right (by linarith : (0:ℚ) ≤ rawR)]
      have h1 : max 0 (min (w:ℚ) rawV) ≤ rawR - 1 :=
        max_le (by linarith) (by linarith [min_le_right (w:ℚ) rawV])
      have h2 : rawR - 1 < (pyInt (rawR + 999/1000) : ℚ) := by
        have hfl : rawR - 1 < (⌊rawR⌋ : ℚ) := Int.sub_one_lt_floor _
        have hmono : ⌊rawR⌋ ≤ ⌊rawR + 999/1000⌋ := Int.floor_le_floor (by linarith)
        have hmq : ((⌊rawR⌋ : ℤ) : ℚ) ≤ ((⌊rawR + 999/1000⌋ : ℤ) : ℚ) := by
          exact_mod_cast hmono
        rw [pyInt, if_pos (by linarith)]
        linarith
      linarith

/-- A quantize-floored low tile edge stays at or below the clipped visible
low edge. -/
lemma left_edge_bound {x y : ℚ} {q c : ℤ} (hq : 0 < q)
    (hc : c = quantizeFloor (pyInt x) q ∨ c = pyInt x)
    (h0 : 0 ≤ x) (hxy : x ≤ y) : (c : ℚ) ≤ y := by
  have hle : c ≤ pyInt x := by
    rcases hc with rfl | rfl
    · exact quantizeFloor_le hq
    · exact le_refl _
  have hcq : (c:ℚ) ≤ (pyInt x : ℚ) := by exact_mod_cast hle
  have h2 := pyInt_le h0
  linarith

/-- The final (possibly quantized, clamped) high tile edge stays at or above
the clipped visible high edge. -/
lemma right_edge_bound {rawV rawR : ℚ} {w : ℕ} {q lo c : ℤ} (hq : 0 < q)
    (hc : c = max (lo + 1) (min ((w:ℕ):ℤ)
        (quantizeCeil (pyInt (max 0 (min (w:ℚ) rawR) + 999/1000)) q)) ∨
      c = max (lo + 1) (min ((w:ℕ):ℤ) (pyInt (max 0 (min (w:ℚ) rawR) + 999/1000))))
    (hgap : rawV + 1 ≤ rawR) :
    max 0 (min (w:ℚ) rawV) ≤ (c : ℚ) := by
  have hub := crop_upper_bound w rawV rawR hgap
  have hWub : max 0 (min (w:ℚ) rawV) ≤ (w:ℚ) := max_le (by positivity) (min_le_left _ _)
  rcases hc with rfl | rfl
  · have hTle : pyInt (max 0 (min (w:ℚ) rawR) + 999/1000) ≤
        quantizeCeil (pyInt (max 0 (min (w:ℚ) rawR) + 999/1000)) q := le_quantizeCeil hq
    have hminq : max 0 (min (w:ℚ) rawV) ≤
        ((min ((w:ℕ):ℤ) (quantizeCeil (pyInt (max 0 (min (w:ℚ) rawR) + 999/1000)) q) : ℤ) : ℚ) := by
      push_cast
      exact le_min hWub (le_trans hub (by exact_mod_cast hTle))
    refine le_trans hminq ?_
    exact_mod_cast le_max_right _ _
  · have hminq : max 0 (min (w:ℚ) rawV) ≤
        ((min ((w:ℕ):ℤ) (pyInt (max 0 (min (w:ℚ) rawR) + 999/1000)) : ℤ) : ℚ) := by
      push_cast
      exact le_min hWub hub
    refine le_trans hminq ?_
    exact_mod_cast le_max_right _ _

/-- CLAIM C2 core: when `computeTile` succeeds, the stored tile box contains
the clipped visible rectangle computed from the same scroll position, canvas
size, pad and zoom — for every zoom in `[0.5, 16]`, margin at least 80 and
quantization at least 1. -/
lemma computeTile_contains (pil : Dims) (z : ℚ) (margin quant : ℤ)
    (scrollL scrollT : ℚ) (cw ch : ℕ) (pad : ℤ)
    (hz1 : 1/2 ≤ z) (hz2 : z ≤ 16) (hm : 80 ≤ margin) (hq : 1 ≤ quant)
    (cl ct cr cb : ℤ)
    (h : computeTile pil z margin quant scrollL scrollT cw ch pad
      = some (cl, ct, cr, cb)) :
    (cl : ℚ) ≤ max 0 (min (pil.w : ℚ) ((scrollL - (pad:ℚ)) / z)) ∧
    (ct : ℚ) ≤ max 0 (min (pil.h : ℚ) ((scrollT - (pad:ℚ)) / z)) ∧
    max 0 (min (pil.w : ℚ) ((scrollL + (cw:ℚ) - (pad:ℚ)) / z)) ≤ (cr : ℚ) ∧
    max 0 (min (pil.h : ℚ) ((scrollT + (ch:ℚ) - (pad:ℚ)) / z)) ≤ (cb : ℚ) := by
  have hzpos : (0:ℚ) < z := by linarith
  have hmrq : (80:ℚ) ≤ (margin:ℚ) := by exact_mod_cast hm
  have hquantPos : 0 < screenToImagePx quant z := screenToImagePx_pos quant z
  have hmonoL : max 0 (min (pil.w:ℚ) ((scrollL - (margin:ℚ) - (pad:ℚ)) / z)) ≤
      max 0 (min (pil.w:ℚ) ((scrollL - (pad:ℚ)) / z)) := by
    refine max_le_max le_rfl (min_le_min le_rfl ?_)
    rw [div_le_div_iff hzpos hzpos]
    nlinarith
  have hmonoT : max 0 (min (pil.h:ℚ) ((scrollT - (margin:ℚ) - (pad:ℚ)) / z)) ≤
      max 0 (min (pil.h:ℚ) ((scrollT - (pad:ℚ)) / z)) := by
    refine max_le_max le_rfl (min_le_min le_rfl ?_)
    rw [div_le_div_iff hzpos hzpos]
    nlinarith
  have hgapR : (scrollL + (cw:ℚ) - (pad:ℚ)) / z + 1 ≤
      (scrollL + (cw:ℚ) + (margin:ℚ) - (pad:ℚ)) / z := by
    rw [show scrollL + (cw:ℚ) + (margin:ℚ) - (pad:ℚ)
        = (scrollL + (cw:ℚ) - (pad:ℚ)) + (margin:ℚ) from by ring, add_div]
    have hmz1 : (1:ℚ) ≤ (margin:ℚ) / z := by
      rw [le_div_iff₀ hzpos, one_mul]
      linarith
    linarith
  have hgapB : (scrollT + (ch:ℚ) - (pad:ℚ)) / z + 1 ≤
      (scrollT + (ch:ℚ) + (margin:ℚ) - (pad:ℚ)) / z := by
    rw [show scrollT + (ch:ℚ) + (margin:ℚ) - (pad:ℚ)
        = (scrollT + (ch:ℚ) - (pad:ℚ)) + (margin:ℚ) from by ring, add_div]
    have hmz1 : (1:ℚ) ≤ (margin:ℚ) / z := by
      rw [le_div_iff₀ hzpos, one_mul]
      linarith
    linarith
  simp only [computeTile, marginRectImage] at h
  split_ifs at h with hdeg hqi
  all_goals first
    | exact Option.noConfusion h
    | (simp only [Option.some.injEq, Prod.mk.injEq] at h
       obtain ⟨h1, h2, h3, h4⟩ := h
       subst h1
       subst h2
       subst h3
       subst h4
       first
         | exact ⟨left_edge_bound hquantPos (Or.inl rfl) (le_max_left _ _) hmonoL,
             left_edge_bound hquantPos (Or.inl rfl) (le_max_left _ _) hmonoT,
             right_edge_bound hquantPos (Or.inl rfl) hgapR,
             right_edge_bound hquantPos (Or.inl rfl) hgapB⟩
         | exact ⟨left_edge_bound hquantPos (Or.inr rfl) (le_max_left _ _) hmonoL,
             left_edge_bound hquantPos (Or.inr rfl) (le_max_left _ _) hmonoT,
             right_edge_bound hquantPos (Or.inr rfl) hgapR,
             right_edge_bound hquantPos (Or.inr rfl) hgapB⟩)

lemma sharpMarginScreen_ge (s : State) (z : ℚ) : 80 ≤ sharpMarginScreen s z := by
  rw [sharpMarginScreen]
  split_ifs
  · exact scaledDragParams_margin z
  · norm_num [idleMarginScreen]

lemma sharpQuantScreen_ge (s : State) (z : ℚ) : 1 ≤ sharpQuantScreen s z := by
  rw [sharpQuantScreen]
  split_ifs
  · exact scaledDragParams_quant z
  · norm_num

lemma visRect_eq (s : State) (pil : Dims) (hp : s.pil = some pil) :
    visibleRectImageCoords s = some (visRectVal s pil) := by
  simp only [visibleRectImageCoords, hp, visRectVal]

lemma visRect_ensure (s : State) (pil : Dims) :
    visibleRectImageCoords (ensureScrollregion s pil) = visibleRectImageCoords s := rfl

/-- Fields of the state untouched by the pre-draw adjustments
(`_ensure_scrollregion` and the optional recenter moveto). -/
lemma preDrawState_preserves (s : State) (pil : Dims) (rc : Bool) :
    (preDrawState s pil rc).pil = s.pil ∧
    (preDrawState s pil rc).zoom = s.zoom ∧
    (preDrawState s pil rc).canvasW = s.canvasW ∧
    (preDrawState s pil rc).canvasH = s.canvasH ∧
    (preDrawState s pil rc).padMode = s.padMode ∧
    (preDrawState s pil rc).tileBox = s.tileBox ∧
    (preDrawState s pil rc).lastDrawKey = s.lastDrawKey ∧
    (preDrawState s pil rc).tkImage = s.tkImage ∧
    (preDrawState s pil rc).isDragging = s.isDragging ∧
    (preDrawState s pil rc).sharpResamples = s.sharpResamples := by
  cases rc <;>
    simp [preDrawState, ensureScrollregion, recenterMoveto, xviewMoveto, yviewMoveto]

/-- Containment at the `drawCore` level: either the tile box is untouched or
the freshly stored tile box contains the visible rectangle handed in. -/
lemma drawCore_tileBox (s : State) (pil : Dims) (f : Bool)
    (hp : s.pil = some pil) (hz1 : 1/2 ≤ s.zoom) (hz2 : s.zoom ≤ 16) :
    (drawCore s pil (zeroGuard s.zoom) (visRectVal s pil).l (visRectVal s pil).t
        (visRectVal s pil).r (visRectVal s pil).b (visRectVal s pil).cw
        (visRectVal s pil).ch f).tileBox = s.tileBox ∨
    ∃ cl ct cr cb,
      (drawCore s pil (zeroGuard s.zoom) (visRectVal s pil).l (visRectVal s pil).t
          (visRectVal s pil).r (visRectVal s pil).b (visRectVal s pil).cw
          (visRectVal s pil).ch f).tileBox = some (cl, ct, cr, cb) ∧
      (cl : ℚ) ≤ (visRectVal s pil).l ∧ (ct : ℚ) ≤ (visRectVal s pil).t ∧
      (visRectVal s pil).r ≤ (cr : ℚ) ∧ (visRectVal s pil).b ≤ (cb : ℚ) := by
  have hz0 : s.zoom ≠ 0 := by
    intro hh
    rw [hh] at hz1
    norm_num at hz1
  have hzg : zeroGuard s.zoom = s.zoom := if_neg hz0
  have hz1' : 1/2 ≤ zeroGuard s.zoom := by rw [hzg]; exact hz1
  have hz2' : zeroGuard s.zoom ≤ 16 := by rw [hzg]; exact hz2
  simp only [drawCore]
  by_cases hcov : (if f = true then false
      else tileCovered s (zeroGuard s.zoom) (visRectVal s pil).l (visRectVal s pil).t
        (visRectVal s pil).r (visRectVal s pil).b) = true
  · rw [if_pos hcov]
    exact Or.inl rfl
  · rw [if_neg hcov]
    rcases hct : computeTile pil (zeroGuard s.zoom) (sharpMarginScreen s (zeroGuard s.zoom))
        (sharpQuantScreen s (zeroGuard s.zoom)) s.scrollL s.scrollT
        (visRectVal s pil).cw (visRectVal s pil).ch
        (computePad (visRectVal s pil).cw (visRectVal s pil).ch s.padMode)
      with - | ⟨cropL, cropT, cropR, cropB⟩
    · simp only [hct]
      exact Or.inl trivial
    · simp only [hct]
      have hb := computeTile_contains pil (zeroGuard s.zoom)
        (sharpMarginScreen s (zeroGuard s.zoom)) (sharpQuantScreen s (zeroGuard s.zoom))
        s.scrollL s.scrollT (visRectVal s pil).cw (visRectVal s pil).ch
        (computePad (visRectVal s pil).cw (visRectVal s pil).ch s.padMode)
        hz1' hz2' (sharpMarginScreen_ge s _) (sharpQuantScreen_ge s _)
        cropL cropT cropR cropB hct
      right
      refine ⟨cropL, cropT, cropR, cropB, ?_, hb.1, hb.2.1, hb.2.2.1, hb.2.2.2⟩
      split <;> rfl

/-- CLAIM C2: whenever a SHARP redraw completes and stores a TileBox, that
TileBox fully contains the clipped visible rectangle (in image coordinates)
computed during that same call — for every loaded image, every zoom in
`[0.5, 16]`, every scroll position, both dragging and idle parameters, and
with or without recenter/force.  (Aborted redraws leave the TileBox
untouched, which is the left disjunct.) -/
theorem tile_box_contains_visible (s : State) (pil : Dims) (rc f : Bool)
    (hp : s.pil = some pil) (hz1 : 1/2 ≤ s.zoom) (hz2 : s.zoom ≤ 16) :
    (drawViewportOnly s rc f).tileBox = s.tileBox ∨
    ∃ cl ct cr cb v,
      (drawViewportOnly s rc f).tileBox = some (cl, ct, cr, cb) ∧
      visibleRectImageCoords (preDrawState s pil rc) = some v ∧
      (cl : ℚ) ≤ v.l ∧ (ct : ℚ) ≤ v.t ∧ v.r ≤ (cr : ℚ) ∧ v.b ≤ (cb : ℚ) := by
  obtain ⟨hpp, hpz, hpw, hph, hpm, hptb, -, -, hpd, -⟩ := preDrawState_preserves s pil rc
  have hv0 := visRect_eq s pil hp
  cases rc with
  | false =>
    have hvs1 : visibleRectImageCoords (preDrawState s pil false) = some (visRectVal s pil) := by
      rw [show preDrawState s pil false = ensureScrollregion s pil from rfl,
        visRect_ensure]
      exact hv0
    have hveq : visRectVal (preDrawState s pil false) pil = visRectVal s pil := by
      rw [visRectVal, visRectVal, hpz, hpw, hph, hpm]
      have hsl : (preDrawState s pil false).scrollL = s.scrollL := rfl
      have hst : (preDrawState s pil false).scrollT = s.scrollT := rfl
      rw [hsl, hst]
    have hmain := drawCore_tileBox (preDrawState s pil false) pil f
      (by rw [hpp]; exact hp) (by rw [hpz]; exact hz1) (by rw [hpz]; exact hz2)
    rw [hpz, hveq] at hmain
    simp only [drawViewportOnly, hp, hv0, Bool.false_eq_true, if_false]
    rcases hmain with hmain | ⟨cl, ct, cr, cb, htb, h1, h2, h3, h4⟩
    · left
      rw [hmain, hptb]
    · right
      exact ⟨cl, ct, cr, cb, visRectVal s pil, htb, hvs1, h1, h2, h3, h4⟩
  | true =>
    cases hv1 : visibleRectImageCoords (preDrawState s pil true) with
    | none =>
      left
      simp only [drawViewportOnly, hp, hv0, if_true, hv1]
      exact hptb
    | some v2 =>
      have hv2eq : v2 = visRectVal (preDrawState s pil true) pil := by
        have := visRect_eq (preDrawState s pil true) pil (by rw [hpp]; exact hp)
        rw [hv1] at this
        exact Option.some_injective _ this
      have hmain := drawCore_tileBox (preDrawState s pil true) pil f
        (by rw [hpp]; exact hp) (by rw [hpz]; exact hz1) (by rw [hpz]; exact hz2)

      rw [hpz] at hmain
      simp only [drawViewportOnly, hp, hv0, if_true, hv1]
      rw [hv2eq]
      rcases hmain with hmain | ⟨cl, ct, cr, cb, htb, h1, h2, h3, h4⟩
      · left
        rw [hmain, hptb]
      · right
        refine ⟨cl, ct, cr, cb, visRectVal (preDrawState s pil true) pil, htb, ?_,
          h1, h2, h3, h4⟩
        rfl

/-- Witness for C2: the baseline state, idle, no recenter, not forced. -/
theorem tile_box_contains_visible_witness :
    (baseState.pil = some ⟨100, 100⟩ ∧ (1:ℚ)/2 ≤ baseState.zoom ∧ baseState.zoom ≤ 16) ∧
    ((drawViewportOnly baseState false false).tileBox = baseState.tileBox ∨
      ∃ cl ct cr cb v,
        (drawViewportOnly baseState false false).tileBox = some (cl, ct, cr, cb) ∧
        visibleRectImageCoords (preDrawState baseState ⟨100, 100⟩ false) = some v ∧
        (cl : ℚ) ≤ v.l ∧ (ct : ℚ) ≤ v.t ∧ v.r ≤ (cr : ℚ) ∧ v.b ≤ (cb : ℚ)) :=
  ⟨⟨rfl, by norm_num [baseState], by norm_num [baseState]⟩,
    tile_box_contains_visible baseState ⟨100, 100⟩ false false rfl
      (by norm_num [baseState]) (by norm_num [baseState])⟩

/-- CLAIM C8: if, during a SHARP redraw, the margin-expanded visible
rectangle clipped to image bounds is empty (right ≤ left or bottom ≤ top),
`_draw_viewport_only` returns without storing: the TileBox, the last draw
key and the last rendered SHARP bitmap are all unchanged. -/
theorem degenerate_rect_aborts (s : State) (pil : Dims) (rc f : Bool)
    (hp : s.pil = some pil)
    (hdeg :
      (marginRectImage pil (zeroGuard s.zoom) (sharpMarginScreen s (zeroGuard s.zoom))
          (preDrawState s pil rc).scrollL (preDrawState s pil rc).scrollT
          (max 1 s.canvasW) (max 1 s.canvasH)
          (computePad (max 1 s.canvasW) (max 1 s.canvasH) s.padMode)).2.2.1 ≤
        (marginRectImage pil (zeroGuard s.zoom) (sharpMarginScreen s (zeroGuard s.zoom))
          (preDrawState s pil rc).scrollL (preDrawState s pil rc).scrollT
          (max 1 s.canvasW) (max 1 s.canvasH)
          (computePad (max 1 s.canvasW) (max 1 s.canvasH) s.padMode)).1 ∨
      (marginRectImage pil (zeroGuard s.zoom) (sharpMarginScreen s (zeroGuard s.zoom))
          (preDrawState s pil rc).scrollL (preDrawState s pil rc).scrollT
          (max 1 s.canvasW) (max 1 s.canvasH)
          (computePad (max 1 s.canvasW) (max 1 s.canvasH) s.padMode)).2.2.2 ≤
        (marginRectImage pil (zeroGuard s.zoom) (sharpMarginScreen s (zeroGuard s.zoom))
          (preDrawState s pil rc).scrollL (preDrawState s pil rc).scrollT
          (max 1 s.canvasW) (max 1 s.canvasH)
          (computePad (max 1 s.canvasW) (max 1 s.canvasH) s.padMode)).2.1) :
    (drawViewportOnly s rc f).tileBox = s.tileBox ∧
    (drawViewportOnly s rc f).lastDrawKey = s.lastDrawKey ∧
    (drawViewportOnly s rc f).tkImage = s.tkImage := by
  obtain ⟨hpp, hpz, hpw, hph, hpm, hptb, hpk, hpi, hpd, -⟩ := preDrawState_preserves s pil rc
  have hv0 := visRect_eq s pil hp
  have hsm : sharpMarginScreen (preDrawState s pil rc) (zeroGuard s.zoom)
      = sharpMarginScreen s (zeroGuard s.zoom) := by
    rw [sharpMarginScreen, sharpMarginScreen, hpd]
  have hct : computeTile pil (zeroGuard s.zoom)
      (sharpMarginScreen (preDrawState s pil rc) (zeroGuard s.zoom))
      (sharpQuantScreen (preDrawState s pil rc) (zeroGuard s.zoom))
      (preDrawState s pil rc).scrollL (preDrawState s pil rc).scrollT
      (max 1 s.canvasW) (max 1 s.canvasH)
      (computePad (max 1 s.canvasW) (max 1 s.canvasH) s.padMode) = none := by
    rw [hsm]
    simp only [computeTile]
    rw [if_pos hdeg]
  -- dispatch on the branches of drawViewportOnly
  cases rc with
  | false =>
    simp only [drawViewportOnly, hp, hv0, Bool.false_eq_true, if_false]
    simp only [drawCore]
    by_cases hcov : (if f = true then false
        else tileCovered (preDrawState s pil false) (zeroGuard s.zoom)
          (visRectVal s pil).l (visRectVal s pil).t
          (visRectVal s pil).r (visRectVal s pil).b) = true
    · rw [if_pos hcov]
      exact ⟨hptb, hpk, hpi⟩
    · rw [if_neg hcov]
      have hct' : computeTile pil (zeroGuard s.zoom)
          (sharpMarginScreen (preDrawState s pil false) (zeroGuard s.zoom))
          (sharpQuantScreen (preDrawState s pil false) (zeroGuard s.zoom))
          (preDrawState s pil false).scrollL (preDrawState s pil false).scrollT
          (visRectVal s pil).cw (visRectVal s pil).ch
          (computePad (visRectVal s pil).cw (visRectVal s pil).ch
            (preDrawState s pil false).padMode) = none := by
        rw [show (preDrawState s pil false).padMode = s.padMode from hpm]
        exact hct
      simp only [hct']
      exact ⟨hptb, hpk, hpi⟩
  | true =>
    cases hv1 : visibleRectImageCoords (preDrawState s pil true) with
    | none =>
      simp only [drawViewportOnly, hp, hv0, if_true, hv1]
      exact ⟨hptb, hpk, hpi⟩
    | some v2 =>
      have hv2eq : v2 = visRectVal (preDrawState s pil true) pil := by
        have := visRect_eq (preDrawState s pil true) pil (by rw [hpp]; exact hp)
        rw [hv1] at this
        exact Option.some_injective _ this
      simp only [drawViewportOnly, hp, hv0, if_true, hv1]
      simp only [drawCore]
      by_cases hcov : (if f = true then false
          else tileCovered (preDrawState s pil true) (zeroGuard s.zoom)
            v2.l v2.t v2.r v2.b) = true
      · rw [if_pos hcov]
        exact ⟨hptb, hpk, hpi⟩
      · rw [if_neg hcov]
        have hcwv : v2.cw = max 1 s.canvasW := by rw [hv2eq, visRectVal, hpw]
        have hchv : v2.ch = max 1 s.canvasH := by rw [hv2eq, visRectVal, hph]
        have hct' : computeTile pil (zeroGuard s.zoom)
            (sharpMarginScreen (preDrawState s pil true) (zeroGuard s.zoom))
            (sharpQuantScreen (preDrawState s pil true) (zeroGuard s.zoom))
            (preDrawState s pil true).scrollL (preDrawState s pil true).scrollT
            v2.cw v2.ch
            (computePad v2.cw v2.ch (preDrawState s pil true).padMode) = none := by
          rw [hcwv, hchv, show (preDrawState s pil true).padMode = s.padMode from hpm]
          exact hct
        simp only [hct']
        exact ⟨hptb, hpk, hpi⟩

/-- Witness for C8: the margin rectangle degenerates when the view is far
outside the image, and the redraw aborts without touching the caches. -/
theorem degenerate_rect_aborts_witness :
    degenerateScrollState.pil = some ⟨100, 100⟩ ∧
    ((drawViewportOnly degenerateScrollState false false).tileBox
        = degenerateScrollState.tileBox ∧
      (drawViewportOnly degenerateScrollState false false).lastDrawKey
        = degenerateScrollState.lastDrawKey ∧
      (drawViewportOnly degenerateScrollState false false).tkImage
        = degenerateScrollState.tkImage) :=
  ⟨rfl, degenerate_rect_aborts degenerateScrollState ⟨100, 100⟩ false false rfl (by
    norm_num [marginRectImage, preDrawState, ensureScrollregion, scrollregionWH,
      computePad, zeroGuard, sharpMarginScreen, baseState, degenerateScrollState,
      idleMarginScreen, min_def, max_def, pyInt])⟩

/-! ## Drag, preview scheduling and `pan_move` -/

/-- A PREVIEW update (throttled or immediate) never touches the SHARP layer:
no SHARP field changes, no `_do_redraw` timer appears or disappears, and no
SHARP resample happens. -/
lemma sharpObs_schedulePreview (s : State) (now : ℚ) :
    sharpObs (schedulePreviewRedraw s now) = sharpObs s := by
  rw [schedulePreviewRedraw]
  split_ifs with h1 h2
  · rw [drawPreviewNow]
    split_ifs with h3 h4
    · rfl
    · rfl
    · cases hp : s.pil with
      | none => simp [hp] at h3
      | some pil =>
        simp only
        split <;> simp [sharpObs, ensureScrollregion, doRedrawIds, hp]
  · simp [sharpObs, afterAdd, doRedrawIds, List.filter_append, isDoRedraw]
  · rfl

/-- States with equal SHARP observations have equal visible rectangles. -/
lemma visRect_eq_of_sharpObs {a b : State} (h : sharpObs a = sharpObs b) :
    visibleRectImageCoords a = visibleRectImageCoords b := by
  have hpil : a.pil = b.pil := congrArg SharpObs.pil h
  have hzoom : a.zoom = b.zoom := congrArg SharpObs.zoom h
  have hsl : a.scrollL = b.scrollL := congrArg SharpObs.scrollL h
  have hst : a.scrollT = b.scrollT := congrArg SharpObs.scrollT h
  have hcw : a.canvasW = b.canvasW := congrArg SharpObs.canvasW h
  have hch : a.canvasH = b.canvasH := congrArg SharpObs.canvasH h
  have hpm : a.padMode = b.padMode := congrArg SharpObs.padMode h
  rw [visibleRectImageCoords, visibleRectImageCoords, hpil, hzoom, hsl, hst, hcw, hch, hpm]

/-- CLAIM C1: while a drag is active with drag-freeze enabled, no escape
pending and a TileBox present, a `pan_move` whose visible rectangle (after
the scroll move) stays fully inside the TileBox performs no SHARP-layer
resample and schedules no SHARP redraw: the SHARP timer handle, pending
`_do_redraw` timers, TileBox, draw key, SHARP bitmap and resample counter
are all unchanged, and the escape flag stays clear.  Only the PREVIEW layer
may have been updated or scheduled. -/
theorem pan_move_frozen_no_sharp (s : State) (x y : ℤ) (now : ℚ) (pil : Dims)
    (tl tt tr tb : ℤ) (v : VisRect)
    (hp : s.pil = some pil)
    (hdrag : s.isDragging = true)
    (hfreeze : s.dragFreezeEnabled = true)
    (hesc : s.dragEscapePending = false)
    (htile : s.tileBox = some (tl, tt, tr, tb))
    (hv : visibleRectImageCoords (scanDragto { s with userPanned := true } x y) = some v)
    (hinside : (tl : ℚ) ≤ v.l ∧ (tt : ℚ) ≤ v.t ∧ v.r ≤ (tr : ℚ) ∧ v.b ≤ (tb : ℚ)) :
    (panMove s x y now).viewAfterId = s.viewAfterId ∧
    doRedrawIds (panMove s x y now) = doRedrawIds s ∧
    (panMove s x y now).tileBox = s.tileBox ∧
    (panMove s x y now).lastDrawKey = s.lastDrawKey ∧
    (panMove s x y now).tkImage = s.tkImage ∧
    (panMove s x y now).sharpResamples = s.sharpResamples ∧
    (panMove s x y now).dragEscapePending = false ∧
    (panMove s x y now).forceNextDraw = s.forceNextDraw := by
  have hobs : sharpObs (if (scanDragto { s with userPanned := true } x y).previewEnabled
        then schedulePreviewRedraw (scanDragto { s with userPanned := true } x y) now
        else scanDragto { s with userPanned := true } x y)
      = sharpObs (scanDragto { s with userPanned := true } x y) := by
    split_ifs with hpe
    · exact sharpObs_schedulePreview _ now
    · rfl
  have htile2 : (if (scanDragto { s with userPanned := true } x y).previewEnabled
        then schedulePreviewRedraw (scanDragto { s with userPanned := true } x y) now
        else scanDragto { s with userPanned := true } x y).tileBox
      = some (tl, tt, tr, tb) :=
    (congrArg SharpObs.tileBox hobs).trans htile
  have hvis2 : visibleRectImageCoords
      (if (scanDragto { s with userPanned := true } x y).previewEnabled
        then schedulePreviewRedraw (scanDragto { s with userPanned := true } x y) now
        else scanDragto { s with userPanned := true } x y) = some v :=
    (visRect_eq_of_sharpObs hobs).trans hv
  have houtside : viewportOutsideTile
      (if (scanDragto { s with userPanned := true } x y).previewEnabled
        then schedulePreviewRedraw (scanDragto { s with userPanned := true } x y) now
        else scanDragto { s with userPanned := true } x y) = false := by
    rw [viewportOutsideTile, htile2, hvis2]
    simp only [decide_eq_false_iff_not]
    intro hcon
    obtain ⟨h1, h2, h3, h4⟩ := hinside
    rcases hcon with hc | hc | hc | hc <;> linarith
  have hfr2 : (if (scanDragto { s with userPanned := true } x y).previewEnabled
        then schedulePreviewRedraw (scanDragto { s with userPanned := true } x y) now
        else scanDragto { s with userPanned := true } x y).dragFreezeEnabled = true :=
    (congrArg SharpObs.dragFreezeEnabled hobs).trans hfreeze
  have hrun : panMove s x y now =
      (if (scanDragto { s with userPanned := true } x y).previewEnabled
        then schedulePreviewRedraw (scanDragto { s with userPanned := true } x y) now
        else scanDragto { s with userPanned := true } x y) := by
    have hcond : (s.pil.isNone || !s.isDragging) = false := by
      rw [hp, hdrag]
      rfl
    rw [panMove, hcond]
    simp only [Bool.false_eq_true, if_false]
    rw [htile2]
    simp only [Option.isNone_some, Bool.false_eq_true, if_false]
    rw [hfr2, houtside]
    simp only [eq_self_iff_true, if_true, Bool.false_eq_true, if_false]
  refine ⟨?_, ?_, ?_, ?_, ?_, ?_, ?_, ?_⟩ <;> rw [hrun]
  · exact (congrArg SharpObs.viewAfterId hobs).trans rfl
  · exact (congrArg SharpObs.doIds hobs).trans rfl
  · exact (congrArg SharpObs.tileBox hobs).trans rfl
  · exact (congrArg SharpObs.lastDrawKey hobs).trans rfl
  · exact (congrArg SharpObs.tkImage hobs).trans rfl
  · exact (congrArg SharpObs.sharpResamples hobs).trans rfl
  · exact (congrArg SharpObs.dragEscapePending hobs).trans hesc
  · exact (congrArg SharpObs.forceNextDraw hobs).trans rfl

/-- Witness for C1: a small pan that keeps the visible rectangle inside the
full-image tile box changes nothing on the SHARP side. -/
theorem pan_move_frozen_no_sharp_witness :
    (draggingState.pil = some ⟨100, 100⟩ ∧ draggingState.isDragging = true ∧
      draggingState.dragFreezeEnabled = true ∧ draggingState.dragEscapePending = false ∧
      draggingState.tileBox = some (0, 0, 100, 100)) ∧
    ((panMove draggingState (-10) (-10) 100).viewAfterId = draggingState.viewAfterId ∧
      doRedrawIds (panMove draggingState (-10) (-10) 100) = doRedrawIds draggingState ∧
      (panMove draggingState (-10) (-10) 100).tileBox = draggingState.tileBox ∧
      (panMove draggingState (-10) (-10) 100).lastDrawKey = draggingState.lastDrawKey ∧
      (panMove draggingState (-10) (-10) 100).tkImage = draggingState.tkImage ∧
      (panMove draggingState (-10) (-10) 100).sharpResamples = draggingState.sharpResamples ∧
      (panMove draggingState (-10) (-10) 100).dragEscapePending = false ∧
      (panMove draggingState (-10) (-10) 100).forceNextDraw = draggingState.forceNextDraw) := by
  have hv : visibleRectImageCoords
      (scanDragto { draggingState with userPanned := true } (-10) (-10))
      = some ⟨5/2, 5/2, 100, 100, 512, 512⟩ := by
    norm_num [visibleRectImageCoords, scanDragto, draggingState, baseState,
      computePad, zeroGuard, min_def, max_def]
  refine ⟨⟨rfl, rfl, rfl, rfl, rfl⟩, ?_⟩
  exact pan_move_frozen_no_sharp draggingState (-10) (-10) 100 ⟨100, 100⟩
    0 0 100 100 ⟨5/2, 5/2, 100, 100, 512, 512⟩ rfl rfl rfl rfl rfl hv
    (by norm_num)

end TimViewer
